import Mathlib

/-!
Shallow embedding of the prospect-miner pipeline core (TypeScript) in Lean 4.

The embedding follows the source files:
  src/state/lead-service.ts   (identity, upsert, stage selection, mutations)
  src/state/types.ts          (data model)
  src/stages/score/index.ts   (score stage)
  src/stages/filter/index.ts  (filter stage)
  stages/base-stage.ts, stages/collect, stages/enrich, stages/refresh
  src/state/run-service.ts    (run counters)

Machine integers are modelled as Nat/Int with explicit `% 2^32` where the
SHA-256 word arithmetic overflows; JavaScript `undefined` vs `null` is
modelled explicitly where the code distinguishes them.
-/

namespace ProspectMiner

/-! ### SHA-256 (FIPS 180-4)

`generateLeadId` in lead-service.ts calls node's
`crypto.createHash('sha256').update(components).digest('hex')`.  We embed
SHA-256 itself, over the UTF-8 bytes of the input string, with 32-bit words
as `Nat` reduced `% 2^32`. -/

def w32 : Nat := 4294967296

def rotr (n x : Nat) : Nat := ((x >>> n) ||| (x <<< (32 - n))) % w32

def shr (n x : Nat) : Nat := x >>> n

def bsig0 (x : Nat) : Nat := (rotr 2 x) ^^^ (rotr 13 x) ^^^ (rotr 22 x)

def bsig1 (x : Nat) : Nat := (rotr 6 x) ^^^ (rotr 11 x) ^^^ (rotr 25 x)

def ssig0 (x : Nat) : Nat := (rotr 7 x) ^^^ (rotr 18 x) ^^^ (shr 3 x)

def ssig1 (x : Nat) : Nat := (rotr 17 x) ^^^ (rotr 19 x) ^^^ (shr 10 x)

def chF (x y z : Nat) : Nat := (x &&& y) ^^^ ((x ^^^ (w32 - 1)) &&& z)

def majF (x y z : Nat) : Nat := (x &&& y) ^^^ (x &&& z) ^^^ (y &&& z)

def shaK : List Nat :=
  [1116352408, 1899447441, 3049323471, 3921009573, 961987163, 1508970993,
   2453635748, 2870763221, 3624381080, 310598401, 607225278, 1426881987,
   1925078388, 2162078206, 2614888103, 3248222580, 3835390401, 4022224774,
   264347078, 604807628, 770255983, 1249150122, 1555081692, 1996064986,
   2554220882, 2821834349, 2952996808, 3210313671, 3336571891, 3584528711,
   113926993, 338241895, 666307205, 773529912, 1294757372, 1396182291,
   1695183700, 1986661051, 2177026350, 2456956037, 2730485921, 2820302411,
   3259730800, 3345764771, 3516065817, 3600352804, 4094571909, 275423344,
   430227734, 506948616, 659060556, 883997877, 958139571, 1322822218,
   1537002063, 1747873779, 1955562222, 2024104815, 2227730452, 2361852424,
   2428436474, 2756734187, 3204031479, 3329325298]

def shaH0 : List Nat :=
  [1779033703, 3144134277, 1013904242, 2773480762, 1359893119, 2600822924,
   528734635, 1541459225]

/-- UTF-8 encoding of one character, as a list of byte values. -/
def utf8Bytes (c : Char) : List Nat :=
  let n := c.toNat
  if n < 0x80 then [n]
  else if n < 0x800 then [0xC0 ||| (n >>> 6), 0x80 ||| (n &&& 0x3F)]
  else if n < 0x10000 then
    [0xE0 ||| (n >>> 12), 0x80 ||| ((n >>> 6) &&& 0x3F), 0x80 ||| (n &&& 0x3F)]
  else
    [0xF0 ||| (n >>> 18), 0x80 ||| ((n >>> 12) &&& 0x3F),
     0x80 ||| ((n >>> 6) &&& 0x3F), 0x80 ||| (n &&& 0x3F)]

def strBytes (s : String) : List Nat := (s.data.map utf8Bytes).flatten

/-- SHA-256 message padding: 0x80, zeros to 56 mod 64, 64-bit big-endian bit length. -/
def padMessage (msg : List Nat) : List Nat :=
  let L := msg.length
  let padZeros := (55 + 64 - (L % 64)) % 64
  let bitLen := 8 * L
  msg ++ [0x80] ++ List.replicate padZeros 0 ++
    [(bitLen >>> 56) % 256, (bitLen >>> 48) % 256, (bitLen >>> 40) % 256,
     (bitLen >>> 32) % 256, (bitLen >>> 24) % 256, (bitLen >>> 16) % 256,
     (bitLen >>> 8) % 256, bitLen % 256]

/-- Group bytes into big-endian 32-bit words. -/
def bytesToWords : List Nat → List Nat
  | a :: b :: c :: d :: rest => (((a * 256 + b) * 256 + c) * 256 + d) :: bytesToWords rest
  | _ => []

/-- Extend a 16-word block to the 64-word message schedule. -/
def schedule (block : List Nat) : List Nat :=
  (List.range 48).foldl
    (fun w _ =>
      let n := w.length
      let x := (ssig1 (w.getD (n - 2) 0) + w.getD (n - 7) 0 +
                ssig0 (w.getD (n - 15) 0) + w.getD (n - 16) 0) % w32
      w ++ [x])
    block

/-- One SHA-256 compression round applied to the working variables. -/
def shaRound (w : List Nat) (st : List Nat) (i : Nat) : List Nat :=
  match st with
  | [a, b, c, d, e, f, g, h] =>
    let t1 := (h + bsig1 e + chF e f g + shaK.getD i 0 + w.getD i 0) % w32
    let t2 := (bsig0 a + majF a b c) % w32
    [(t1 + t2) % w32, a, b, c, (d + t1) % w32, e, f, g]
  | st => st

def compressBlock (h : List Nat) (block : List Nat) : List Nat :=
  let w := schedule block
  let fin := (List.range 64).foldl (shaRound w) h
  List.zipWith (fun x y => (x + y) % w32) h fin

def sha256Words (msg : List Nat) : List Nat :=
  let words := bytesToWords (padMessage msg)
  let blocks := (List.range (words.length / 16)).map (fun i => (words.drop (16 * i)).take 16)
  blocks.foldl compressBlock shaH0

def hexDigit (n : Nat) : Char := "0123456789abcdef".data.getD n '0'

def wordHex (x : Nat) : List Char :=
  (List.range 8).map (fun i => hexDigit ((x >>> (28 - 4 * i)) &&& 15))

/-- Hex digest of the SHA-256 hash of a string's UTF-8 bytes. -/
def sha256Hex (s : String) : String := ⟨((sha256Words (strBytes s)).map wordHex).flatten⟩

/-! ### String primitives

`toLowerCase`, `trim`, `split`, `join` and `substring` are modelled on the
character list directly (the library's `Substring`-based versions do not
matter here; these have the same extensional behavior for the ASCII data
this program handles). -/

/-- JS `toLowerCase` (ASCII case mapping). -/
def jsLower (s : String) : String := ⟨s.data.map Char.toLower⟩

/-- JS `trim`: strip leading and trailing whitespace. -/
def jsTrim (s : String) : String :=
  ⟨((s.data.dropWhile Char.isWhitespace).reverse.dropWhile Char.isWhitespace).reverse⟩

/-- JS `substring(0, n)`. -/
def strTake (s : String) (n : Nat) : String := ⟨s.data.take n⟩

/-- JS `split(sep)` for a one-character separator. -/
def splitOnChar (sep : Char) : List Char → List (List Char)
  | [] => [[]]
  | c :: rest =>
    match splitOnChar sep rest with
    | [] => [[]]
    | g :: gs => if c = sep then [] :: g :: gs else (c :: g) :: gs

def splitStr (sep : Char) (s : String) : List String :=
  (splitOnChar sep s.data).map (fun cs => ⟨cs⟩)

/-- JS `array.join(sep)`. -/
def joinSep (sep : String) : List String → String
  | [] => ""
  | [x] => x
  | x :: xs => x ++ sep ++ joinSep sep xs

/-! ### Identity (lead-service.ts: generateLeadId, canonicalizeName) -/

/-- JavaScript `o || d` for an optional string: `undefined` and `''` are falsy. -/
def jsOrStr (o : Option String) (d : String) : String :=
  match o with
  | none => d
  | some s => if s = "" then d else s

/-- A component of the hashed tuple: `.toLowerCase().trim()`. -/
def lowerTrim (s : String) : String := jsTrim (jsLower s)

/-- The `'|'`-joined, lower-cased, trimmed component tuple hashed by
`generateLeadId` (lead-service.ts lines 28–33): name, `city || ''`,
`state || ''`, `country || 'us'`. -/
def leadIdComponents (canonicalName : String) (city state country : Option String) : String :=
  joinSep "|"
    [lowerTrim canonicalName,
     lowerTrim (jsOrStr city ""),
     lowerTrim (jsOrStr state ""),
     lowerTrim (jsOrStr country "us")]

/-- lead-service.ts `generateLeadId`: first 16 hex characters of the SHA-256
hash of the joined components. -/
def generateLeadId (canonicalName : String) (city state country : Option String) : String :=
  strTake (sha256Hex (leadIdComponents canonicalName city state country)) 16

/-- JS `\w` character class (ASCII word characters). -/
def isWordChar (c : Char) : Bool := c.isAlphanum || c = '_'

/-- Collapse each maximal whitespace run to a single `' '` (regex `\s+` → `' '`). -/
def collapseWs : List Char → List Char
  | [] => []
  | c :: rest =>
    if c.isWhitespace then
      match collapseWs rest with
      | ' ' :: tl => ' ' :: tl
      | tl => ' ' :: tl
    else c :: collapseWs rest

def suffixTokens : List String := ["llc", "inc", "corp", "ltd", "co", "company", "the"]

/-- lead-service.ts `canonicalizeName`: lower-case, strip characters outside
`\w`/`\s`, collapse whitespace, delete whole tokens from the legal-suffix
list (regex `\b(llc|inc|corp|ltd|co|company|the)\b` → `''`), trim. -/
def canonicalizeName (name : String) : String :=
  let lowered := (jsLower name).data.filter (fun c => isWordChar c || c.isWhitespace)
  let collapsed : String := ⟨collapseWs lowered⟩
  let toks := splitStr ' ' collapsed
  let removed := toks.map (fun t => if suffixTokens.contains t then "" else t)
  jsTrim (joinSep " " removed)

/-! ### JS numbers

JS numbers are modelled as exact fractions (`JsNum`): an integer numerator
over a positive denominator; every operation below keeps the denominator
positive.  (Floating-point rounding is not modelled; the program's
arithmetic on reachable paths is exact at these magnitudes.) -/

structure JsNum where
  num : Int
  den : Nat := 1
  deriving Repr, DecidableEq

instance (n : Nat) : OfNat JsNum n := ⟨⟨n, 1⟩⟩

def JsNum.ofNatQ (n : Nat) : JsNum := ⟨n, 1⟩

def JsNum.ofIntQ (n : Int) : JsNum := ⟨n, 1⟩

def JsNum.add (a b : JsNum) : JsNum :=
  ⟨a.num * b.den + b.num * a.den, a.den * b.den⟩

def JsNum.sub (a b : JsNum) : JsNum :=
  ⟨a.num * b.den - b.num * a.den, a.den * b.den⟩

def JsNum.mul (a b : JsNum) : JsNum := ⟨a.num * b.num, a.den * b.den⟩

/-- Division by a nonzero value (the only kind this program performs). -/
def JsNum.div (a b : JsNum) : JsNum :=
  ⟨a.num * b.den * b.num.sign, a.den * b.num.natAbs⟩

instance : Add JsNum := ⟨JsNum.add⟩

instance : Sub JsNum := ⟨JsNum.sub⟩

instance : Mul JsNum := ⟨JsNum.mul⟩

instance : Div JsNum := ⟨JsNum.div⟩

/-- Value comparison `a < b` (cross-multiplied; denominators positive). -/
def JsNum.ltb (a b : JsNum) : Bool := a.num * (b.den : Int) < b.num * (a.den : Int)

/-- Value equality (cross-multiplied). -/
def JsNum.eqv (a b : JsNum) : Bool := a.num * (b.den : Int) = b.num * (a.den : Int)

/-- `n < a` for an integer-valued left operand. -/
def ltIntNum (n : Int) (a : JsNum) : Bool := n * (a.den : Int) < a.num

/-- JS `Math.round`: `⌊x + 1/2⌋` computed with floor division. -/
def JsNum.round (a : JsNum) : Int := Int.fdiv (2 * a.num + a.den) (2 * a.den)

/-- JS `Math.min` on numbers. -/
def JsNum.minQ (a b : JsNum) : JsNum := if JsNum.ltb b a then b else a

/-- Decimal rendering of an integer-valued number for reason strings (the
formatting of non-integral floats is not modelled; no reachable path
produces one). -/
def jsNumToString (a : JsNum) : String :=
  if a.den ≠ 0 && a.num % (a.den : Int) = 0 then toString (a.num / (a.den : Int))
  else toString a.num ++ "/" ++ toString a.den

/-! ### Data model (src/state/types.ts) -/

inductive LeadStatus where
  | new | collected | filtered | enriched | scored | output | excluded | cooldown
  deriving Repr, DecidableEq

inductive AngleType where
  | no_website | outdated_website | low_reviews | poor_ratings | no_online_booking | founder_led
  deriving Repr, DecidableEq

inductive ContactResult where
  | sent | opened | bounced_hard | bounced_soft | no_reply | replied
  deriving Repr, DecidableEq

inductive ExclusionReason where
  | bad_fit | duplicate_brand | competitor | manually_excluded
  | invalid_contact | out_of_geo | wrong_industry
  deriving Repr, DecidableEq

inductive FailureType where
  | captcha_block | no_contact_page | site_timeout | bounce_hard | bounce_soft
  | rate_limited | dns_error | ssl_error | page_not_found | parse_error | unknown
  deriving Repr, DecidableEq

structure SourceMetadata where
  directories : List String
  geos : List String
  tags : List String
  originalSource : Option String := none
  discoveryRunId : Option String := none
  deriving Repr, DecidableEq

structure EnrichmentData where
  emails : List String
  phones : List String
  socialLinks : List (String × String)
  hasOnlineBooking : Bool
  lastWebsiteUpdate : Option String := none
  pageTitle : Option String := none
  metaDescription : Option String := none
  technologies : Option (List String) := none
  employeeCount : Option Int := none
  linkedinCompanyUrl : Option String := none
  linkedinEmployeeCount : Option Int := none
  founderLinkedin : Option String := none
  deriving Repr, DecidableEq

structure EnrichmentFailure where
  type : FailureType
  source : String
  timestamp : Nat
  message : Option String := none
  deriving Repr, DecidableEq

/-- A stored lead row (`leads` table / the `Lead` interface).  `Option` fields
are SQL-nullable columns; timestamps are Unix-epoch naturals. -/
structure Lead where
  leadId : String
  businessName : String
  canonicalName : String
  address : Option String := none
  city : Option String := none
  state : Option String := none
  postalCode : Option String := none
  country : Option String := none
  phone : Option String := none
  email : Option String := none
  website : Option String := none
  firstSeenAt : Nat
  lastSeenAt : Nat
  lastContactAttempt : Option Nat := none
  lastContactResult : Option ContactResult := none
  excludedReason : Option ExclusionReason := none
  cooldownUntil : Option Nat := none
  activeAngles : List AngleType := []
  exhaustedAngles : List AngleType := []
  sourceMetadata : SourceMetadata
  enrichmentData : Option EnrichmentData := none
  enrichmentFailures : List EnrichmentFailure := []
  score : Option Int := none
  scoreReasons : Option (List String) := none
  status : LeadStatus
  lastOutputAt : Option Nat := none
  createdAt : Nat
  updatedAt : Nat
  deriving Repr, DecidableEq

/-- A TypeScript `Partial<Lead> & { leadId: string }` as passed to `upsert`.

For a nullable Lead field the partial key has three states, which the code
distinguishes (`{...existing, ...lead}` overwrites on *present* keys, and
`sanitizeParams` stores a present-but-`undefined` value as SQL NULL):
`none` = key absent, `some none` = key present holding `undefined`,
`some (some v)` = key present holding `v`.  For fields that are
non-optional on `Lead`, callers in this repository only ever pass real
values, so one `Option` layer suffices.  `firstSeenAt`/`createdAt` may
appear in a partial but are never written by the UPDATE statement (its
column list omits `first_seen_at`/`created_at`) and the INSERT branch sets
them to `now`; they are therefore ignored below. -/
structure PartialLead where
  leadId : String
  businessName : Option String := none
  canonicalName : Option String := none
  address : Option (Option String) := none
  city : Option (Option String) := none
  state : Option (Option String) := none
  postalCode : Option (Option String) := none
  country : Option (Option String) := none
  phone : Option (Option String) := none
  email : Option (Option String) := none
  website : Option (Option String) := none
  firstSeenAt : Option Nat := none
  createdAt : Option Nat := none
  lastContactAttempt : Option (Option Nat) := none
  lastContactResult : Option (Option ContactResult) := none
  excludedReason : Option (Option ExclusionReason) := none
  cooldownUntil : Option (Option Nat) := none
  activeAngles : Option (List AngleType) := none
  exhaustedAngles : Option (List AngleType) := none
  sourceMetadata : Option SourceMetadata := none
  enrichmentData : Option (Option EnrichmentData) := none
  enrichmentFailures : Option (List EnrichmentFailure) := none
  score : Option (Option Int) := none
  scoreReasons : Option (Option (List String)) := none
  status : Option LeadStatus := none
  lastOutputAt : Option (Option Nat) := none
  deriving Repr, DecidableEq

/-- Spread semantics for a nullable field: an absent key keeps the existing
value, a present key (even one holding `undefined`) overwrites it. -/
def spreadOpt {α : Type} (p : Option (Option α)) (e : Option α) : Option α :=
  match p with
  | none => e
  | some v => v

/-- Spread semantics for a required field: present key overwrites. -/
def spreadReq {α : Type} (p : Option α) (e : α) : α := p.getD e

/-- A present key's value on the INSERT branch (`undefined` stored as NULL). -/
def flatOpt {α : Type} (p : Option (Option α)) : Option α :=
  match p with
  | none => none
  | some v => v

/-! ### Durable lead store (lead-service.ts)

The `leads` table is modelled as a list of rows in rowid (insertion) order:
INSERT appends, UPDATE replaces in place.  `lead_id` is the primary key, so
well-formed stores have pairwise-distinct `leadId`s. -/

abbrev Store := List Lead

def getById (store : Store) (id : String) : Option Lead :=
  store.find? (fun l => l.leadId = id)

/-- The row written by the UPDATE branch of `upsert`: the in-memory object is
`{...existing, ...lead, lastSeenAt: now, updatedAt: now}`, and the UPDATE
statement writes every column from it except `first_seen_at` and
`created_at`, which keep their stored values. -/
def mergeLead (existing : Lead) (p : PartialLead) (now : Nat) : Lead where
  leadId := existing.leadId
  businessName := spreadReq p.businessName existing.businessName
  canonicalName := spreadReq p.canonicalName existing.canonicalName
  address := spreadOpt p.address existing.address
  city := spreadOpt p.city existing.city
  state := spreadOpt p.state existing.state
  postalCode := spreadOpt p.postalCode existing.postalCode
  country := spreadOpt p.country existing.country
  phone := spreadOpt p.phone existing.phone
  email := spreadOpt p.email existing.email
  website := spreadOpt p.website existing.website
  firstSeenAt := existing.firstSeenAt
  lastSeenAt := now
  lastContactAttempt := spreadOpt p.lastContactAttempt existing.lastContactAttempt
  lastContactResult := spreadOpt p.lastContactResult existing.lastContactResult
  excludedReason := spreadOpt p.excludedReason existing.excludedReason
  cooldownUntil := spreadOpt p.cooldownUntil existing.cooldownUntil
  activeAngles := spreadReq p.activeAngles existing.activeAngles
  exhaustedAngles := spreadReq p.exhaustedAngles existing.exhaustedAngles
  sourceMetadata := spreadReq p.sourceMetadata existing.sourceMetadata
  enrichmentData := spreadOpt p.enrichmentData existing.enrichmentData
  enrichmentFailures := spreadReq p.enrichmentFailures existing.enrichmentFailures
  score := spreadOpt p.score existing.score
  scoreReasons := spreadOpt p.scoreReasons existing.scoreReasons
  status := spreadReq p.status existing.status
  lastOutputAt := spreadOpt p.lastOutputAt existing.lastOutputAt
  createdAt := existing.createdAt
  updatedAt := now

/-- The row written by the INSERT branch of `upsert` (defaults per the
`newLead` literal: `|| ''`, `|| []`, `|| 'new'`, empty source metadata,
`firstSeenAt`/`lastSeenAt`/`createdAt`/`updatedAt` all `now`). -/
def insertLead (p : PartialLead) (now : Nat) : Lead where
  leadId := p.leadId
  businessName := p.businessName.getD ""
  canonicalName := p.canonicalName.getD ""
  address := flatOpt p.address
  city := flatOpt p.city
  state := flatOpt p.state
  postalCode := flatOpt p.postalCode
  country := flatOpt p.country
  phone := flatOpt p.phone
  email := flatOpt p.email
  website := flatOpt p.website
  firstSeenAt := now
  lastSeenAt := now
  lastContactAttempt := flatOpt p.lastContactAttempt
  lastContactResult := flatOpt p.lastContactResult
  excludedReason := flatOpt p.excludedReason
  cooldownUntil := flatOpt p.cooldownUntil
  activeAngles := p.activeAngles.getD []
  exhaustedAngles := p.exhaustedAngles.getD []
  sourceMetadata := p.sourceMetadata.getD ⟨[], [], [], none, none⟩
  enrichmentData := flatOpt p.enrichmentData
  enrichmentFailures := p.enrichmentFailures.getD []
  score := flatOpt p.score
  scoreReasons := flatOpt p.scoreReasons
  status := p.status.getD .new
  lastOutputAt := flatOpt p.lastOutputAt
  createdAt := now
  updatedAt := now

/-- `LeadService.upsert`: update in place when `getById` finds the id,
otherwise insert a fresh row. -/
def upsert (store : Store) (p : PartialLead) (now : Nat) : Store :=
  match getById store p.leadId with
  | some existing =>
    let m := mergeLead existing p now
    store.map (fun l => if l.leadId = p.leadId then m else l)
  | none => store ++ [insertLead p now]

/-- `LeadService.updateStatus`. -/
def updateStatus (store : Store) (id : String) (status : LeadStatus) (now : Nat) : Store :=
  store.map (fun l => if l.leadId = id then { l with status := status, updatedAt := now } else l)

/-- `LeadService.exclude`: sets the reason and moves the row to `excluded`. -/
def exclude (store : Store) (id : String) (reason : ExclusionReason) (now : Nat) : Store :=
  store.map (fun l =>
    if l.leadId = id then
      { l with excludedReason := some reason, status := .excluded, updatedAt := now }
    else l)

/-- `LeadService.setCooldown`: sets the timestamp and moves the row to `cooldown`. -/
def setCooldown (store : Store) (id : String) (untilTs : Nat) (now : Nat) : Store :=
  store.map (fun l =>
    if l.leadId = id then
      { l with cooldownUntil := some untilTs, status := .cooldown, updatedAt := now }
    else l)

/-- `LeadService.updateAngles`. -/
def updateAngles (store : Store) (id : String) (active exhausted : List AngleType) (now : Nat) :
    Store :=
  store.map (fun l =>
    if l.leadId = id then
      { l with activeAngles := active, exhaustedAngles := exhausted, updatedAt := now }
    else l)

/-- `LeadService.updateEnrichment`. -/
def updateEnrichment (store : Store) (id : String) (data : EnrichmentData) (now : Nat) : Store :=
  store.map (fun l =>
    if l.leadId = id then { l with enrichmentData := some data, updatedAt := now } else l)

/-- `LeadService.updateScore`. -/
def updateScore (store : Store) (id : String) (score : Int) (reasons : List String) (now : Nat) :
    Store :=
  store.map (fun l =>
    if l.leadId = id then
      { l with score := some score, scoreReasons := some reasons, updatedAt := now }
    else l)

/-- `LeadService.markOutput`. -/
def markOutput (store : Store) (id : String) (now : Nat) : Store :=
  store.map (fun l =>
    if l.leadId = id then
      { l with status := .output, lastOutputAt := some now, updatedAt := now }
    else l)

/-- The `statusMap` of `getLeadsForStage` (predecessor statuses per stage). -/
def stageStatuses : String → List LeadStatus
  | "collect" => [.new]
  | "filter" => [.collected]
  | "enrich" => [.filtered]
  | "score" => [.enriched]
  | "output" => [.scored]
  | _ => []

/-- `cooldown_until IS NULL OR cooldown_until < now`. -/
def cooldownPassed (l : Lead) (now : Nat) : Bool :=
  match l.cooldownUntil with
  | none => true
  | some t => t < now

/-- The WHERE clause of `getLeadsForStage`. -/
def stageEligible (statuses : List LeadStatus) (now : Nat) (l : Lead) : Bool :=
  statuses.contains l.status && l.excludedReason.isNone && cooldownPassed l now

/-- JS `limit ? sql-with-LIMIT : sql-without`: `undefined` and `0` are falsy,
so both mean "no limit". -/
def jsLimit {α : Type} (limit : Option Nat) (xs : List α) : List α :=
  match limit with
  | none => xs
  | some k => if k = 0 then xs else xs.take k

/-- `LeadService.getLeadsForStage`.  The SELECT has no ORDER BY; rows come
back in the table's rowid (insertion) order, which the list models. -/
def getLeadsForStage (store : Store) (stage : String) (limit : Option Nat) (now : Nat) :
    List Lead :=
  jsLimit limit (store.filter (stageEligible (stageStatuses stage) now))

/-- `LeadService.getExpiredCooldowns`: `cooldown_until IS NOT NULL AND cooldown_until < now`. -/
def getExpiredCooldowns (store : Store) (limit : Option Nat) (now : Nat) : List Lead :=
  jsLimit limit (store.filter (fun l =>
    match l.cooldownUntil with
    | some t => t < now
    | none => false))

/-! ### Raw discovery and the collect step (lead-service.ts createFromRaw,
stages/collect) -/

structure RawBusinessData where
  name : String
  address : Option String := none
  city : Option String := none
  state : Option String := none
  postalCode : Option String := none
  country : Option String := none
  phone : Option String := none
  email : Option String := none
  website : Option String := none
  rating : Option JsNum := none
  reviewCount : Option Int := none
  categories : Option (List String) := none
  sourceUrl : Option String := none
  deriving Repr, DecidableEq

/-- The `Partial<Lead>` literal built by `LeadService.createFromRaw`.  Every
contact key (`address` … `website`) is *present* in the literal, holding
`raw.<field>` — which may be `undefined` — so on an existing lead the spread
overwrites the stored value (`sanitizeParams` turns `undefined` into NULL). -/
def createFromRawPartial (raw : RawBusinessData) (source runId : String) : PartialLead :=
  let canonical := canonicalizeName raw.name
  { leadId := generateLeadId canonical raw.city raw.state raw.country
    businessName := some raw.name
    canonicalName := some canonical
    address := some raw.address
    city := some raw.city
    state := some raw.state
    postalCode := some raw.postalCode
    country := some (some (jsOrStr raw.country "US"))
    phone := some raw.phone
    email := some raw.email
    website := some raw.website
    sourceMetadata := some
      { directories := [source]
        geos :=
          match raw.city with
          | some c => if c = "" then [] else [c ++ ", " ++ raw.state.getD ""]
          | none => []
        tags := raw.categories.getD []
        originalSource := some source
        discoveryRunId := some runId }
    status := some .new }

/-- `LeadService.createFromRaw`: upsert the partial above. -/
def createFromRaw (store : Store) (raw : RawBusinessData) (source runId : String) (now : Nat) :
    Store :=
  upsert store (createFromRawPartial raw source runId) now

/-- One non-duplicate iteration of `CollectStage.execute`: `createFromRaw`
followed by `updateStatus(leadId, 'collected')` on the same identity key. -/
def collectRaw (store : Store) (raw : RawBusinessData) (source runId : String) (now : Nat) :
    Store :=
  let canonical := canonicalizeName raw.name
  let leadId := generateLeadId canonical raw.city raw.state raw.country
  updateStatus (createFromRaw store raw source runId now) leadId .collected now

/-! ### Scoring (src/stages/score/index.ts) -/

/-- JS truthiness of an optional string: `undefined`, `null` and `''` are falsy. -/
def strTruthy (o : Option String) : Bool :=
  match o with
  | none => false
  | some s => s ≠ ""

structure ScoringWeights where
  hasEmail : JsNum
  hasPhone : JsNum
  hasWebsite : JsNum
  reviewCount : JsNum
  rating : JsNum
  deriving Repr, DecidableEq

structure AngleWeights where
  no_website : JsNum
  outdated_website : JsNum
  low_reviews : JsNum
  poor_ratings : JsNum
  no_online_booking : JsNum
  founder_led : JsNum
  deriving Repr, DecidableEq

structure ScoringConfig where
  weights : ScoringWeights
  minScore : JsNum
  lowReviewCount : JsNum
  poorRatingThreshold : JsNum
  outdatedWebsiteDays : JsNum
  angleWeights : AngleWeights
  deriving Repr, DecidableEq

structure ScoreResult where
  score : Int
  reasons : List String
  angles : List AngleType
  deriving Repr, DecidableEq

/-- JS `Math.max` on integers. -/
def jsMaxI (a b : Int) : Int := if a < b then b else a

/-- JS `Math.min` on integers. -/
def jsMinI (a b : Int) : Int := if b < a then b else a

/-- `ScoreStage.getReviewCount` reads `(lead.sourceMetadata as any).reviewCount`.
`SourceMetadata` objects in this codebase are built only by `createFromRaw`
and never carry that key, so the dynamic read yields `undefined` and the
helper returns null.  `getRating` is identical with `rating`. -/
def getReviewCount (_lead : Lead) : Option Int := none

def getRating (_lead : Lead) : Option JsNum := none

/-- `ScoreStage.isOutdatedWebsite`.  `new Date(s).getTime()` is the JS date
parser, modelled as an oracle `parseDate` (`none` = invalid date / NaN,
whose comparison is false). -/
def isOutdatedWebsite (cfg : ScoringConfig) (parseDate : String → Option JsNum)
    (now : JsNum) (lead : Lead) : Bool :=
  match lead.enrichmentData with
  | none => false
  | some d =>
    match d.lastWebsiteUpdate with
    | none => false
    | some s =>
      if s = "" then false
      else
        match parseDate s with
        | none => false
        | some t => JsNum.ltb cfg.outdatedWebsiteDays ((now - t) / (24 * 60 * 60 * 1000))

/-- `ScoreStage.isFounderLed`: a founder LinkedIn signal, or
`employeeCount && employeeCount <= 10` (0 is falsy). -/
def isFounderLed (lead : Lead) : Bool :=
  match lead.enrichmentData with
  | none => false
  | some d =>
    strTruthy d.founderLinkedin ||
      (match d.employeeCount with
       | some n => n ≠ 0 && n ≤ 10
       | none => false)

/-- Rendering of a JS number for the reason strings.  Only integral values
occur on reachable paths (review/rating reads always return null); the
decimal formatting of non-integral floats is not modelled. -/
def ratJsString (q : JsNum) : String := jsNumToString q

/-- `ScoreStage.scoreLead`: sequential accumulation of weights, reasons and
angles, then `Math.min(100, Math.max(0, Math.round(score)))`. -/
def scoreLead (cfg : ScoringConfig) (parseDate : String → Option JsNum) (now : JsNum)
    (lead : Lead) : ScoreResult :=
  let w := cfg.weights
  let aw := cfg.angleWeights
  -- email
  let hasEmail := strTruthy lead.email ||
    (match lead.enrichmentData with
     | some d => !d.emails.isEmpty
     | none => false)
  let score1 : JsNum := if hasEmail then w.hasEmail else 0
  let reasons1 := if hasEmail then ["+email_found"] else ["-no_email"]
  -- phone
  let hasPhone := strTruthy lead.phone ||
    (match lead.enrichmentData with
     | some d => !d.phones.isEmpty
     | none => false)
  let score2 := score1 + (if hasPhone then w.hasPhone else 0)
  let reasons2 := reasons1 ++ (if hasPhone then ["+phone_found"] else ["-no_phone"])
  -- website / angles
  let noWebsite := !strTruthy lead.website
  let outdated := !noWebsite && isOutdatedWebsite cfg parseDate now lead
  let score3 := score2 +
    (if noWebsite then aw.no_website
     else w.hasWebsite + (if outdated then aw.outdated_website else 0))
  let reasons3 := reasons2 ++
    (if noWebsite then ["+no_website_angle"]
     else ["+has_website"] ++ (if outdated then ["+outdated_website_angle"] else []))
  let angles3 : List AngleType :=
    if noWebsite then [.no_website] else (if outdated then [.outdated_website] else [])
  -- online booking
  let noBooking :=
    match lead.enrichmentData with
    | some d => !d.hasOnlineBooking
    | none => false
  let score4 := score3 + (if noBooking then aw.no_online_booking else 0)
  let reasons4 := reasons3 ++ (if noBooking then ["+no_booking_angle"] else [])
  let angles4 := angles3 ++ (if noBooking then [AngleType.no_online_booking] else [])
  -- review count (always null in this codebase, see getReviewCount)
  let (score5, reasons5, angles5) :=
    match getReviewCount lead with
    | none => (score4, reasons4, angles4)
    | some rc =>
      if JsNum.ltb (JsNum.ofIntQ rc) cfg.lowReviewCount then
        (score4 + aw.low_reviews, reasons4 ++ ["+low_reviews_angle"],
         angles4 ++ [AngleType.low_reviews])
      else
        (score4 + JsNum.minQ (JsNum.ofIntQ rc / 10) w.reviewCount,
         reasons4 ++ ["+review_count(" ++ toString rc ++ ")"], angles4)
  -- rating (always null in this codebase, see getRating)
  let (score6, reasons6, angles6) :=
    match getRating lead with
    | none => (score5, reasons5, angles5)
    | some r =>
      if JsNum.ltb r cfg.poorRatingThreshold then
        (score5 + aw.poor_ratings,
         reasons5 ++ ["+poor_rating_angle(" ++ ratJsString r ++ ")"],
         angles5 ++ [AngleType.poor_ratings])
      else
        (score5 + (r / 5) * w.rating,
         reasons5 ++ ["+good_rating(" ++ ratJsString r ++ ")"], angles5)
  -- founder-led
  let founder := isFounderLed lead
  let score7 := score6 + (if founder then aw.founder_led else 0)
  let reasons7 := reasons6 ++ (if founder then ["+founder_led_angle"] else [])
  let angles7 := angles6 ++ (if founder then [AngleType.founder_led] else [])
  { score := jsMinI 100 (jsMaxI 0 (JsNum.round score7)), reasons := reasons7, angles := angles7 }

/-- The per-lead outcome of `ScoreStage.execute` (lines 36–74). -/
inductive ScoreDecision where
  | excludedBadFit
  | cooldownSet (untilTs : Nat)
  | advanced (score : Int) (reasons : List String) (active : List AngleType)
  deriving Repr, DecidableEq

structure ScoreStageConfig where
  scoring : ScoringConfig
  cooldownDefaultDays : Nat
  deriving Repr, DecidableEq

/-- The branch structure of one `ScoreStage.execute` loop iteration:
minimum-score check first, then exhaustion filtering, then advancement. -/
def scoreStageDecision (cfg : ScoreStageConfig) (parseDate : String → Option JsNum) (now : Nat)
    (lead : Lead) : ScoreDecision :=
  let result := scoreLead cfg.scoring parseDate (JsNum.ofNatQ now) lead
  if ltIntNum result.score cfg.scoring.minScore then
    .excludedBadFit
  else
    let active := result.angles.filter (fun a => !lead.exhaustedAngles.contains a)
    if active.isEmpty then
      .cooldownSet (now + cfg.cooldownDefaultDays * 24 * 60 * 60 * 1000)
    else
      .advanced result.score result.reasons active

/-- The store mutations each score-stage branch performs. -/
def applyScoreDecision (store : Store) (id : String) (exhausted : List AngleType)
    (d : ScoreDecision) (now : Nat) : Store :=
  match d with
  | .excludedBadFit => exclude store id .bad_fit now
  | .cooldownSet t => setCooldown store id t now
  | .advanced s rs active =>
    updateStatus (updateAngles (updateScore store id s rs now) id active exhausted now)
      id .scored now

/-- One `ScoreStage.execute` loop iteration applied to the store. -/
def scoreLeadStep (cfg : ScoreStageConfig) (parseDate : String → Option JsNum) (store : Store)
    (lead : Lead) (now : Nat) : Store :=
  applyScoreDecision store lead.leadId lead.exhaustedAngles
    (scoreStageDecision cfg parseDate now lead) now

/-! ### Filter rule evaluation (src/stages/filter/index.ts)

`getFieldValue` traverses the in-memory lead object by a dot path, so the
lead is reflected into a JS value tree exactly as `rowToLead` builds it
(NULL columns become `null`, except `enrichmentData`/`scoreReasons`, whose
ternaries produce `undefined`; JSON-parsed objects omit keys that were
`undefined` when stringified). -/

inductive JsVal where
  | jsUndefined
  | jsNull
  | str (s : String)
  | num (q : JsNum)
  | bool (b : Bool)
  | arr (xs : List JsVal)
  | obj (fields : List (String × JsVal))
  deriving Repr

/-- Property read `v[k]`: objects look the key up, anything else yields
`undefined` (built-in properties of primitives are not modelled). -/
def jsGet (v : JsVal) (k : String) : JsVal :=
  match v with
  | .obj fs =>
    match fs.find? (fun p => p.1 = k) with
    | some p => p.2
    | none => .jsUndefined
  | _ => .jsUndefined

/-- `FilterStage.getFieldValue`: walk the dot path; a `null`/`undefined`
intermediate returns `null` early; the final value may be `undefined`. -/
def getFieldValue (v : JsVal) : List String → JsVal
  | [] => v
  | k :: rest =>
    match v with
    | .jsNull => .jsNull
    | .jsUndefined => .jsNull
    | v => getFieldValue (jsGet v k) rest

def LeadStatus.str : LeadStatus → String
  | .new => "new"
  | .collected => "collected"
  | .filtered => "filtered"
  | .enriched => "enriched"
  | .scored => "scored"
  | .output => "output"
  | .excluded => "excluded"
  | .cooldown => "cooldown"

def ExclusionReason.str : ExclusionReason → String
  | .bad_fit => "bad_fit"
  | .duplicate_brand => "duplicate_brand"
  | .competitor => "competitor"
  | .manually_excluded => "manually_excluded"
  | .invalid_contact => "invalid_contact"
  | .out_of_geo => "out_of_geo"
  | .wrong_industry => "wrong_industry"

def AngleType.str : AngleType → String
  | .no_website => "no_website"
  | .outdated_website => "outdated_website"
  | .low_reviews => "low_reviews"
  | .poor_ratings => "poor_ratings"
  | .no_online_booking => "no_online_booking"
  | .founder_led => "founder_led"

def ContactResult.str : ContactResult → String
  | .sent => "sent"
  | .opened => "opened"
  | .bounced_hard => "bounced_hard"
  | .bounced_soft => "bounced_soft"
  | .no_reply => "no_reply"
  | .replied => "replied"

def FailureType.str : FailureType → String
  | .captcha_block => "captcha_block"
  | .no_contact_page => "no_contact_page"
  | .site_timeout => "site_timeout"
  | .bounce_hard => "bounce_hard"
  | .bounce_soft => "bounce_soft"
  | .rate_limited => "rate_limited"
  | .dns_error => "dns_error"
  | .ssl_error => "ssl_error"
  | .page_not_found => "page_not_found"
  | .parse_error => "parse_error"
  | .unknown => "unknown"

def optStrJs (o : Option String) : JsVal :=
  match o with
  | none => .jsNull
  | some s => .str s

def optNumJs (o : Option Nat) : JsVal :=
  match o with
  | none => .jsNull
  | some n => .num (JsNum.ofNatQ n)

/-- A key present only when the option is `some` (JSON.stringify drops
`undefined`-valued keys, so they are absent after the parse). -/
def optKey (k : String) (o : Option JsVal) : List (String × JsVal) :=
  match o with
  | none => []
  | some v => [(k, v)]

def sourceMetadataJs (m : SourceMetadata) : JsVal :=
  .obj ([("directories", .arr (m.directories.map .str)),
         ("geos", .arr (m.geos.map .str)),
         ("tags", .arr (m.tags.map .str))]
    ++ optKey "originalSource" (m.originalSource.map .str)
    ++ optKey "discoveryRunId" (m.discoveryRunId.map .str))

def enrichmentDataJs (d : EnrichmentData) : JsVal :=
  .obj ([("emails", .arr (d.emails.map .str)),
         ("phones", .arr (d.phones.map .str)),
         ("socialLinks", .obj (d.socialLinks.map (fun p => (p.1, .str p.2)))),
         ("hasOnlineBooking", .bool d.hasOnlineBooking)]
    ++ optKey "lastWebsiteUpdate" (d.lastWebsiteUpdate.map .str)
    ++ optKey "pageTitle" (d.pageTitle.map .str)
    ++ optKey "metaDescription" (d.metaDescription.map .str)
    ++ optKey "technologies" (d.technologies.map (fun ts => .arr (ts.map .str)))
    ++ optKey "employeeCount" (d.employeeCount.map (fun n => .num (JsNum.ofIntQ n)))
    ++ optKey "linkedinCompanyUrl" (d.linkedinCompanyUrl.map .str)
    ++ optKey "linkedinEmployeeCount" (d.linkedinEmployeeCount.map (fun n => .num (JsNum.ofIntQ n)))
    ++ optKey "founderLinkedin" (d.founderLinkedin.map .str))

def enrichmentFailureJs (f : EnrichmentFailure) : JsVal :=
  .obj ([("type", .str f.type.str), ("source", .str f.source),
         ("timestamp", .num (JsNum.ofNatQ f.timestamp))]
    ++ optKey "message" (f.message.map .str))

/-- The lead object as `rowToLead` (lead-service.ts lines 49–80) builds it. -/
def leadToJs (l : Lead) : JsVal :=
  .obj
    [("leadId", .str l.leadId),
     ("businessName", .str l.businessName),
     ("canonicalName", .str l.canonicalName),
     ("address", optStrJs l.address),
     ("city", optStrJs l.city),
     ("state", optStrJs l.state),
     ("postalCode", optStrJs l.postalCode),
     ("country", optStrJs l.country),
     ("phone", optStrJs l.phone),
     ("email", optStrJs l.email),
     ("website", optStrJs l.website),
     ("firstSeenAt", .num (JsNum.ofNatQ l.firstSeenAt)),
     ("lastSeenAt", .num (JsNum.ofNatQ l.lastSeenAt)),
     ("lastContactAttempt", optNumJs l.lastContactAttempt),
     ("lastContactResult", optStrJs (l.lastContactResult.map ContactResult.str)),
     ("excludedReason", optStrJs (l.excludedReason.map ExclusionReason.str)),
     ("cooldownUntil", optNumJs l.cooldownUntil),
     ("activeAngles", .arr (l.activeAngles.map (fun a => .str a.str))),
     ("exhaustedAngles", .arr (l.exhaustedAngles.map (fun a => .str a.str))),
     ("sourceMetadata", sourceMetadataJs l.sourceMetadata),
     ("enrichmentData",
       match l.enrichmentData with
       | none => .jsUndefined
       | some d => enrichmentDataJs d),
     ("enrichmentFailures", .arr (l.enrichmentFailures.map enrichmentFailureJs)),
     ("score",
       match l.score with
       | none => .jsNull
       | some n => .num (JsNum.ofIntQ n)),
     ("scoreReasons",
       match l.scoreReasons with
       | none => .jsUndefined
       | some rs => .arr (rs.map .str)),
     ("status", .str l.status.str),
     ("lastOutputAt", optNumJs l.lastOutputAt),
     ("createdAt", .num (JsNum.ofNatQ l.createdAt)),
     ("updatedAt", .num (JsNum.ofNatQ l.updatedAt))]

inductive FilterOp where
  | equals | not_equals | contains | not_contains
  | greater_than | less_than | is_null | not_null | regex
  deriving Repr, DecidableEq

structure FilterRule where
  field : String
  operator : FilterOp
  value : JsVal
  reason : ExclusionReason
  deriving Repr

/-- JS `===`.  A config rule value is parsed from JSON, so it is never
reference-equal to an object or array taken off a lead. -/
def jsStrictEq (a b : JsVal) : Bool :=
  match a, b with
  | .jsUndefined, .jsUndefined => true
  | .jsNull, .jsNull => true
  | .str x, .str y => x = y
  | .num x, .num y => JsNum.eqv x y
  | .bool x, .bool y => x = y
  | _, _ => false

/-- JS `String(v)` (array/decimal formatting is approximated; rule values
on the `contains`/`regex` paths are strings in practice). -/
def jsToString (v : JsVal) : String :=
  match v with
  | .str s => s
  | .num q => ratJsString q
  | .bool true => "true"
  | .bool false => "false"
  | .jsNull => "null"
  | .jsUndefined => "undefined"
  | .arr _ => ""
  | .obj _ => "[object Object]"

/-- `String.prototype.includes`: substring test. -/
def strIncludes (hay needle : String) : Bool :=
  (List.range (hay.data.length + 1)).any (fun i => needle.data.isPrefixOf (hay.data.drop i))

/-- `FilterStage.evaluateRule`.  `rt pattern value` is the JS regex oracle
(`new RegExp(pattern).test(value)`, with an invalid pattern folded into a
`false` result, as the catch branch does). -/
def evaluateRule (rt : String → String → Bool) (leadJs : JsVal) (rule : FilterRule) : Bool :=
  let value := getFieldValue leadJs (splitStr '.' rule.field)
  match rule.operator with
  | .equals => jsStrictEq value rule.value
  | .not_equals => !jsStrictEq value rule.value
  | .contains =>
    match value with
    | .str s => strIncludes (jsLower s) (jsLower (jsToString rule.value))
    | _ => false
  | .not_contains =>
    match value with
    | .str s => !strIncludes (jsLower s) (jsLower (jsToString rule.value))
    | _ => false
  | .greater_than =>
    match value, rule.value with
    | .num a, .num b => JsNum.ltb b a
    | _, _ => false
  | .less_than =>
    match value, rule.value with
    | .num a, .num b => JsNum.ltb a b
    | _, _ => false
  | .is_null =>
    match value with
    | .jsNull => true
    | .jsUndefined => true
    | _ => false
  | .not_null =>
    match value with
    | .jsNull => false
    | .jsUndefined => false
    | _ => true
  | .regex =>
    match value with
    | .str s => rt (jsToString rule.value) s
    | _ => false

/-- `FilterStage.evaluateLead` (lines 76–111): absorbing prior exclusion,
then category tags, then name keywords, then the first matching custom
rule.  `excludeCategories`/`excludeKeywords` arrive already lower-cased
(execute lower-cases them before the loop). -/
def evaluateLead (rt : String → String → Bool) (lead : Lead) (rules : List FilterRule)
    (excludeCategories excludeKeywords : List String) : Option ExclusionReason :=
  match lead.excludedReason with
  | some r => some r
  | none =>
    if lead.sourceMetadata.tags.any (fun c => excludeCategories.contains (jsLower c)) then
      some .bad_fit
    else if excludeKeywords.any (fun k => strIncludes (jsLower lead.businessName) k) then
      some .bad_fit
    else
      match rules.find? (fun rule => evaluateRule rt (leadToJs lead) rule) with
      | some rule => some rule.reason
      | none => none

/-- `FilterStage.execute`'s preprocessing plus `evaluateLead`: the exposed
evaluator over raw (un-lower-cased) config lists. -/
def filterEvaluate (rt : String → String → Bool) (lead : Lead) (rules : List FilterRule)
    (excludeCategories excludeKeywords : List String) : Option ExclusionReason :=
  evaluateLead rt lead rules (excludeCategories.map jsLower)
    (excludeKeywords.map jsLower)

/-- One `FilterStage.execute` loop iteration applied to the store: exclude
on a reason; otherwise hold (no mutation) while a cooldown is still
running, else advance to `filtered`. -/
def filterLeadStep (rt : String → String → Bool) (rules : List FilterRule)
    (excludeCategories excludeKeywords : List String) (store : Store) (lead : Lead)
    (now : Nat) : Store :=
  match filterEvaluate rt lead rules excludeCategories excludeKeywords with
  | some reason => exclude store lead.leadId reason now
  | none =>
    match lead.cooldownUntil with
    | some t => if t > now then store else updateStatus store lead.leadId .filtered now
    | none => updateStatus store lead.leadId .filtered now

/-! ### Enrichment (stages/enrich, EnrichStage.enrichLead lines 85–135)

The website scrape is external I/O; its outcome is a parameter: `none`
means no website / scrape returned null, `some ws` is the scraped contact
data. -/

structure ScrapeFound where
  emails : List String
  phones : List String
  hasOnlineBooking : Bool
  pageTitle : Option String := none
  socialLinks : List (String × String) := []
  deriving Repr, DecidableEq

/-- `[...new Set([...a, ...b])]`: concatenation deduplicated keeping first
occurrences. -/
def jsSetUnion (a b : List String) : List String := (a ++ b).eraseDups

/-- `Object.assign(target, updates)` on a string-keyed record. -/
def assocAssign (m upd : List (String × String)) : List (String × String) :=
  upd.foldl
    (fun acc kv =>
      if acc.any (fun p => p.1 = kv.1) then
        acc.map (fun p => if p.1 = kv.1 then kv else p)
      else acc ++ [kv])
    m

/-- JS `a || b` on optional strings where `''` is falsy. -/
def jsOrOpt (a b : Option String) : Option String :=
  match a with
  | some s => if s = "" then b else some s
  | none => b

/-- The enrichment record `enrichLead` builds: fresh defaults, overlaid with
the lead's existing data (`Object.assign`), then merged with the website
scrape when the lead has a website and the scrape succeeded. -/
def buildEnrichment (lead : Lead) (ws : Option ScrapeFound) : EnrichmentData :=
  let base : EnrichmentData :=
    { emails := [], phones := [], socialLinks := [], hasOnlineBooking := false }
  let d0 := lead.enrichmentData.getD base
  match (if strTruthy lead.website then ws else none) with
  | none => d0
  | some w =>
    { d0 with
      emails := jsSetUnion d0.emails w.emails
      phones := jsSetUnion d0.phones w.phones
      hasOnlineBooking := d0.hasOnlineBooking || w.hasOnlineBooking
      pageTitle := jsOrOpt w.pageTitle d0.pageTitle
      socialLinks := assocAssign d0.socialLinks w.socialLinks }

/-- One `EnrichStage.execute` loop iteration applied to the store: persist
the enrichment record, promote the first found email/phone onto empty lead
fields via `upsert`, then advance to `enriched`. -/
def enrichLeadStep (store : Store) (lead : Lead) (ws : Option ScrapeFound) (now : Nat) :
    Store :=
  let d := buildEnrichment lead ws
  let s1 := updateEnrichment store lead.leadId d now
  let s2 :=
    if !d.emails.isEmpty && !strTruthy lead.email then
      upsert s1 { leadId := lead.leadId, email := some (d.emails.head?) } now
    else s1
  let s3 :=
    if !d.phones.isEmpty && !strTruthy lead.phone then
      upsert s2 { leadId := lead.leadId, phone := some (d.phones.head?) } now
    else s2
  updateStatus s3 lead.leadId .enriched now

/-! ### Output stage (OutputStage.execute lines 27–86) -/

/-- One `OutputStage.execute` state-update iteration: `markOutput` then
`setCooldown(now + defaultDays·86400000)` — the cooldown write also moves
`status` to `cooldown`. -/
def outputLeadStep (cooldownDefaultDays : Nat) (store : Store) (lead : Lead) (now : Nat) :
    Store :=
  let s1 := markOutput store lead.leadId now
  setCooldown s1 lead.leadId (now + cooldownDefaultDays * 24 * 60 * 60 * 1000) now

/-! ### Refresh stage (stages/refresh: RefreshStage) -/

/-- `Object.keys` of a stored enrichment record after its JSON round-trip:
the four required keys plus whichever optional keys are present. -/
def enrichmentKeys (d : EnrichmentData) : List String :=
  ["emails", "phones", "socialLinks", "hasOnlineBooking"]
    ++ (if d.lastWebsiteUpdate.isSome then ["lastWebsiteUpdate"] else [])
    ++ (if d.pageTitle.isSome then ["pageTitle"] else [])
    ++ (if d.metaDescription.isSome then ["metaDescription"] else [])
    ++ (if d.technologies.isSome then ["technologies"] else [])
    ++ (if d.employeeCount.isSome then ["employeeCount"] else [])
    ++ (if d.linkedinCompanyUrl.isSome then ["linkedinCompanyUrl"] else [])
    ++ (if d.linkedinEmployeeCount.isSome then ["linkedinEmployeeCount"] else [])
    ++ (if d.founderLinkedin.isSome then ["founderLinkedin"] else [])

/-- The re-entry status chosen by `RefreshStage.processExpiredCooldowns`
(lines 71–82).  `rowToLead` maps a NULL `score` column to JS `null`
(`score: row.score`), and the guard is `lead.score !== undefined` — which
`null` satisfies — so the guard holds for every lead read from the store
and the result is always `enriched`.  (`enrichmentData` instead maps NULL
to `undefined` through its ternary, so its guard is a genuine presence
test.) -/
def refreshNewStatus (lead : Lead) : LeadStatus :=
  -- let newStatus: LeadStatus = 'collected'
  let s1 : LeadStatus := .collected
  -- if (lead.enrichmentData && Object.keys(lead.enrichmentData).length > 0)
  let s2 :=
    match lead.enrichmentData with
    | some d => if (enrichmentKeys d).length > 0 then LeadStatus.enriched else s1
    | none => s1
  -- if (lead.score !== undefined): row.score is null or a number, never
  -- undefined, and null !== undefined, so the test is true either way.
  let scoreIsNotUndefined :=
    match lead.score with
    | some _ => true
    | none => true
  if scoreIsNotUndefined then .enriched else s2

/-- One `processExpiredCooldowns` loop iteration applied to the store:
clear the cooldown via `upsert` (the key is present holding `undefined`),
optionally reset the angle sets, then write the re-entry status. -/
def refreshExpiredStep (resetExhaustedAngles : Bool) (store : Store) (lead : Lead)
    (now : Nat) : Store :=
  let s1 := upsert store { leadId := lead.leadId, cooldownUntil := some none } now
  let s2 := if resetExhaustedAngles then updateAngles s1 lead.leadId [] [] now else s1
  updateStatus s2 lead.leadId (refreshNewStatus lead) now

/-- `RefreshStage.processExpiredCooldowns`: sweep every selected expired
lead through `refreshExpiredStep`. -/
def processExpiredCooldowns (resetExhaustedAngles : Bool) (limit : Option Nat)
    (store : Store) (now : Nat) : Store :=
  (getExpiredCooldowns store limit now).foldl
    (fun s l => refreshExpiredStep resetExhaustedAngles s l now) store

/-- `RefreshStage.checkSignalChanges` is an explicit stub: it always reports
no change. -/
def checkSignalChanges (_lead : Lead) : Bool := false

/-- One `processSignalChanges` loop iteration: on a (never-occurring) signal
change, clear the cooldown and reset to `filtered`; otherwise touch the
timestamps via an id-only `upsert`. -/
def refreshSignalStep (store : Store) (lead : Lead) (now : Nat) : Store :=
  if checkSignalChanges lead then
    updateStatus (upsert store { leadId := lead.leadId, cooldownUntil := some none } now)
      lead.leadId .filtered now
  else
    upsert store { leadId := lead.leadId } now

/-! ### Run counters (stages/base-stage.ts, run-service.ts)

`processed`/`passed`/`failed` start at 0 per run and are only ever
incremented; `updateProgress` and `complete` write their current values to
the run row (`RunService.updateProgress`).  A stage's counter activity is a
sequence of events: the per-lead stages (collect, filter, enrich, score,
output, refresh) emit, per item, `processed++` followed by at most one of
`passed++`/`failed++` (collect's in-run duplicate path emits neither); the
discover stage emits `processed++` per discovered record and
`passed += batch.length` when a batch is flushed to the staging queue. -/

structure RunCounters where
  processed : Nat
  passed : Nat
  failed : Nat
  deriving Repr, DecidableEq

/-- Per-item outcome in a per-lead stage loop. -/
inductive ItemOutcome where
  | passed | failed | skipped
  deriving Repr, DecidableEq

/-- One counter event between two observation points. -/
inductive CounterEvent where
  /-- `this.processed++` then the item's single outcome increment. -/
  | item (o : ItemOutcome)
  /-- Discover: `this.processed++`, record appended to the pending batch. -/
  | discoverItem
  /-- Discover: `this.passed += count` for the flushed pending batch. -/
  | flush
  deriving Repr, DecidableEq

/-- Counter state plus the discover stage's pending (unflushed) batch size. -/
structure CounterState where
  counters : RunCounters
  pending : Nat
  deriving Repr, DecidableEq

def initialCounters : CounterState := ⟨⟨0, 0, 0⟩, 0⟩

def stepCounters (s : CounterState) (e : CounterEvent) : CounterState :=
  match e with
  | .item o =>
    ⟨⟨s.counters.processed + 1,
      s.counters.passed + (if o = .passed then 1 else 0),
      s.counters.failed + (if o = .failed then 1 else 0)⟩, s.pending⟩
  | .discoverItem => ⟨⟨s.counters.processed + 1, s.counters.passed, s.counters.failed⟩,
      s.pending + 1⟩
  | .flush => ⟨⟨s.counters.processed, s.counters.passed + s.pending, s.counters.failed⟩, 0⟩

/-- The run's counter state after a sequence of events. -/
def runCounterState (events : List CounterEvent) : CounterState :=
  events.foldl stepCounters initialCounters

/-- The per-lead score-stage outcome, as counted by `ScoreStage.execute`:
exclusion and cooldown both increment `failed`, advancement increments
`passed`. -/
def scoreItemOutcome (cfg : ScoreStageConfig) (parseDate : String → Option JsNum) (now : Nat)
    (lead : Lead) : ItemOutcome :=
  match scoreStageDecision cfg parseDate now lead with
  | .excludedBadFit => .failed
  | .cooldownSet _ => .failed
  | .advanced _ _ _ => .passed

/-- The per-lead filter-stage outcome: exclusion and cooldown-hold increment
`failed`, advancement increments `passed`. -/
def filterItemOutcome (rt : String → String → Bool) (rules : List FilterRule)
    (excludeCategories excludeKeywords : List String) (lead : Lead) (now : Nat) :
    ItemOutcome :=
  match filterEvaluate rt lead rules excludeCategories excludeKeywords with
  | some _ => .failed
  | none =>
    match lead.cooldownUntil with
    | some t => if t > now then .failed else .passed
    | none => .passed

/-! ### Pipeline operations and the status state machine (spec §4.5)

Each constructor is one per-lead action a stage performs, including the
stage's own selection guard (the stages only touch leads returned by
`getLeadsForStage` / `getExpiredCooldowns` / the signal-change query). -/

inductive PipelineOp where
  | collect (raw : RawBusinessData) (source runId : String)
  | filterStep (rules : List FilterRule) (excludeCategories excludeKeywords : List String)
      (id : String)
  | enrichStep (id : String) (ws : Option ScrapeFound)
  | scoreStep (cfg : ScoreStageConfig) (id : String)
  | outputStep (cooldownDefaultDays : Nat) (minScore : JsNum) (id : String)
  | refreshExpired (resetExhaustedAngles : Bool) (id : String)
  | refreshSignal (cutoff : Nat) (id : String)

/-- JS `lead.score || 0` (OutputStage's minimum-score filter). -/
def scoreOrZero (l : Lead) : JsNum :=
  match l.score with
  | none => 0
  | some n => JsNum.ofIntQ n

/-- Apply one per-lead pipeline operation to the store.  `rt` is the regex
oracle and `parseDate` the date-parse oracle. -/
def applyOp (rt : String → String → Bool) (parseDate : String → Option JsNum)
    (op : PipelineOp) (store : Store) (now : Nat) : Store :=
  match op with
  | .collect raw source runId => collectRaw store raw source runId now
  | .filterStep rules cats keys id =>
    match getById store id with
    | some lead =>
      if stageEligible (stageStatuses "filter") now lead then
        filterLeadStep rt rules cats keys store lead now
      else store
    | none => store
  | .enrichStep id ws =>
    match getById store id with
    | some lead =>
      if stageEligible (stageStatuses "enrich") now lead then
        enrichLeadStep store lead ws now
      else store
    | none => store
  | .scoreStep cfg id =>
    match getById store id with
    | some lead =>
      if stageEligible (stageStatuses "score") now lead then
        scoreLeadStep cfg parseDate store lead now
      else store
    | none => store
  | .outputStep days minScore id =>
    match getById store id with
    | some lead =>
      if stageEligible (stageStatuses "output") now lead && !JsNum.ltb (scoreOrZero lead) minScore then
        outputLeadStep days store lead now
      else store
    | none => store
  | .refreshExpired reset id =>
    match getById store id with
    | some lead =>
      match lead.cooldownUntil with
      | some t => if t < now then refreshExpiredStep reset store lead now else store
      | none => store
    | none => store
  | .refreshSignal cutoff id =>
    match getById store id with
    | some lead =>
      if (lead.status = .output || lead.status = .cooldown) && lead.updatedAt < cutoff then
        refreshSignalStep store lead now
      else store
    | none => store

/-- Position of a status in the forward pipeline chain (`none` for the side
states). -/
def chainIdx : LeadStatus → Option Nat
  | .new => some 0
  | .collected => some 1
  | .filtered => some 2
  | .enriched => some 3
  | .scored => some 4
  | .output => some 5
  | .excluded => none
  | .cooldown => none

/-- The status edges the spec's state diagram allows (claim C5): staying
put, moving forward along the chain, the back-edges into `excluded` and
`cooldown`, and the refresh re-entry edges out of `cooldown`. -/
def specAllowedEdge (a b : LeadStatus) : Bool :=
  a == b || b == .excluded || b == .cooldown ||
    (a == .cooldown && (b == .collected || b == .enriched || b == .filtered)) ||
    (match chainIdx a, chainIdx b with
     | some i, some j => i < j
     | _, _ => false)

/-- The additional edges the code actually takes beyond `specAllowedEdge`:
re-collection of an existing lead resets any status to `collected` (through
a transient `new`), and the expired-cooldown sweep keys on `cooldownUntil`
alone, so it can re-enter a lead from any status (not just `cooldown`) at
`enriched` or `collected`. -/
def amendedEdgeOk (op : PipelineOp) (a b : LeadStatus) : Bool :=
  specAllowedEdge a b ||
    (match op with
     | .collect _ _ _ => b == .collected
     | .refreshExpired _ _ => b == .collected || b == .enriched
     | _ => false)

/-! ## Concrete fixtures used by witnesses and counterexamples -/

/-- A minimal collected lead. -/
def sampleLead : Lead :=
  { leadId := "k1", businessName := "B", canonicalName := "b",
    firstSeenAt := 3, lastSeenAt := 3,
    sourceMetadata := ⟨[], [], [], none, none⟩, status := .collected,
    createdAt := 3, updatedAt := 3 }

/-- A collected lead already excluded as `bad_fit`. -/
def excludedLead : Lead :=
  { sampleLead with leadId := "k2", excludedReason := some .bad_fit }

/-- A lead sitting in cooldown until t=5 with no enrichment and no score. -/
def cooledLead : Lead :=
  { sampleLead with leadId := "k3", status := .cooldown, cooldownUntil := some 5 }

/-- A lead awaiting scoring. -/
def enrichedLead : Lead :=
  { sampleLead with leadId := "k4", status := .enriched }

/-- The regex oracle used in concrete runs (no rule uses `regex` there). -/
def rtNone : String → String → Bool := fun _ _ => false

/-- The date-parse oracle used in concrete runs. -/
def pdNone : String → Option JsNum := fun _ => none

/-- An all-zero scoring configuration (0 weights, minimum score 0, 7-day
default cooldown). -/
def zeroScoreCfg : ScoreStageConfig :=
  { scoring :=
      { weights := ⟨0, 0, 0, 0, 0⟩, minScore := 0, lowReviewCount := 0,
        poorRatingThreshold := 0, outdatedWebsiteDays := 0,
        angleWeights := ⟨0, 0, 0, 0, 0, 0⟩ }
    cooldownDefaultDays := 7 }

/-- First discovery of the business: has a website, no email/phone. -/
def rawWithSite : RawBusinessData :=
  { name := "Acme Plumbing", city := some "Austin", state := some "TX",
    website := some "https://acme.example" }

/-- A later discovery of the same business with no contact fields at all. -/
def rawNoContact : RawBusinessData :=
  { name := "Acme Plumbing", city := some "Austin", state := some "TX" }

/-- The identity key both raw records above canonicalize to. -/
def acmeId : String := (createFromRawPartial rawNoContact "yelp" "run1").leadId

/-- The store after collect (t=100), filter (t=101) and enrich (t=102, the
scrape finding one email) have each processed the lead once. -/
def acmeEnriched : Store :=
  applyOp rtNone pdNone
    (.enrichStep acmeId (some { emails := ["info@acme.example"], phones := [],
                                hasOnlineBooking := false }))
    (applyOp rtNone pdNone (.filterStep [] [] [] acmeId)
      (applyOp rtNone pdNone (.collect rawWithSite "yelp" "run1") [] 100) 101) 102

/-- The store above after the score stage has also run (t=103). -/
def acmeScored : Store :=
  applyOp rtNone pdNone (.scoreStep zeroScoreCfg acmeId) acmeEnriched 103

/-! ## Store lemmas -/

theorem getById_map_if (store : Store) (id : String) (g : Lead → Lead)
    (hg : ∀ l, l.leadId = id → (g l).leadId = id) :
    getById (store.map (fun l => if l.leadId = id then g l else l)) id =
      (getById store id).map g := by
  induction store with
  | nil => rfl
  | cons hd tl ih =>
    simp only [List.map_cons]
    unfold getById at ih ⊢
    by_cases h : hd.leadId = id
    · rw [if_pos h, List.find?_cons_of_pos _ (by simpa using hg hd h),
        List.find?_cons_of_pos _ (by simpa using h)]
      rfl
    · rw [if_neg h, List.find?_cons_of_neg _ (by simpa using h),
        List.find?_cons_of_neg _ (by simpa using h)]
      exact ih

theorem getById_of_mem {store : Store} {lead : Lead}
    (hwf : (store.map Lead.leadId).Nodup) (hmem : lead ∈ store) :
    getById store lead.leadId = some lead := by
  induction store with
  | nil => cases hmem
  | cons hd tl ih =>
    simp only [List.map_cons, List.nodup_cons] at hwf
    unfold getById
    rcases List.mem_cons.mp hmem with h | h
    · subst h
      rw [List.find?_cons_of_pos _ (by simp)]
    · have hne : ¬hd.leadId = lead.leadId := by
        intro he
        exact hwf.1 (he ▸ List.mem_map_of_mem Lead.leadId h)
      rw [List.find?_cons_of_neg _ (by simpa using hne)]
      exact ih hwf.2 h

theorem find?_first {α : Type} (p : α → Bool) (pre : List α) (x : α) (post : List α)
    (hpre : ∀ a ∈ pre, p a = false) (hx : p x = true) :
    (pre ++ x :: post).find? p = some x := by
  induction pre with
  | nil => simp [List.find?_cons_of_pos _ hx]
  | cons hd tl ih =>
    rw [List.cons_append,
      List.find?_cons_of_neg _ (by simp [hpre hd (List.mem_cons_self hd tl)])]
    exact ih (fun a ha => hpre a (List.mem_cons_of_mem hd ha))

theorem getById_after_keyed (store : Store) (id : String) (g : Lead → Lead) (lead : Lead)
    (hg : ∀ l, l.leadId = id → (g l).leadId = id)
    (hid : getById store id = some lead) :
    getById (store.map (fun l => if l.leadId = id then g l else l)) id = some (g lead) := by
  rw [getById_map_if store id g hg, hid]
  rfl

/-! ## Theorems about the claims -/

/-- C1: `generateLeadId` is a pure function of the lower-cased, trimmed
canonical name, city, state and country (country defaulting to `'us'` when
absent or empty), so two inputs agreeing on those canonicalized components
receive the same key in every invocation, run and process; and the key is
the first 16 hex characters of the SHA-256 hash of the `'|'`-joined
components. -/
theorem generateLeadId_deterministic
    (n₁ n₂ : String) (c₁ c₂ s₁ s₂ co₁ co₂ : Option String)
    (hn : lowerTrim n₁ = lowerTrim n₂)
    (hc : lowerTrim (jsOrStr c₁ "") = lowerTrim (jsOrStr c₂ ""))
    (hs : lowerTrim (jsOrStr s₁ "") = lowerTrim (jsOrStr s₂ ""))
    (hco : lowerTrim (jsOrStr co₁ "us") = lowerTrim (jsOrStr co₂ "us")) :
    generateLeadId n₁ c₁ s₁ co₁ = generateLeadId n₂ c₂ s₂ co₂ ∧
      generateLeadId n₁ c₁ s₁ co₁ =
        strTake (sha256Hex (leadIdComponents n₁ c₁ s₁ co₁)) 16 := by
  constructor
  · unfold generateLeadId leadIdComponents
    rw [hn, hc, hs, hco]
  · rfl

/-- C1 witness: `"Pro Plumbing"` in Austin, TX with no country and
`"pro plumbing "` in `" austin"`, `"tx "`, country `"US"` canonicalize to
the same components and get the same key. -/
theorem generateLeadId_deterministic_witness :
    (lowerTrim "Pro Plumbing" = lowerTrim "pro plumbing " ∧
      lowerTrim (jsOrStr (some "Austin") "") = lowerTrim (jsOrStr (some " austin") "") ∧
      lowerTrim (jsOrStr (some "TX") "") = lowerTrim (jsOrStr (some "tx ") "") ∧
      lowerTrim (jsOrStr none "us") = lowerTrim (jsOrStr (some "US") "us")) ∧
    generateLeadId "Pro Plumbing" (some "Austin") (some "TX") none =
      generateLeadId "pro plumbing " (some " austin") (some "tx ") (some "US") :=
  ⟨⟨by decide, by decide, by decide, by decide⟩,
    (generateLeadId_deterministic "Pro Plumbing" "pro plumbing " (some "Austin")
      (some " austin") (some "TX") (some "tx ") none (some "US")
      (by decide) (by decide) (by decide) (by decide)).1⟩

/-- C3: upserting an existing `leadId` keeps the row count, and the stored
row keeps its `firstSeenAt`/`createdAt` while `lastSeenAt`/`updatedAt`
become the current time — so collecting the same discovery twice yields one
row with its original first-seen/created timestamps. -/
theorem upsert_existing_idempotent (store : Store) (p : PartialLead) (now : Nat)
    (existing : Lead) (h : getById store p.leadId = some existing) :
    (upsert store p now).length = store.length ∧
      getById (upsert store p now) p.leadId = some (mergeLead existing p now) ∧
      (mergeLead existing p now).firstSeenAt = existing.firstSeenAt ∧
      (mergeLead existing p now).createdAt = existing.createdAt ∧
      (mergeLead existing p now).lastSeenAt = now ∧
      (mergeLead existing p now).updatedAt = now := by
  have hid : existing.leadId = p.leadId := by
    have := List.find?_some h
    simpa using this
  unfold upsert
  rw [h]
  refine ⟨List.length_map _ _, ?_, rfl, rfl, rfl, rfl⟩
  have := getById_map_if store p.leadId (fun _ => mergeLead existing p now)
    (fun _ _ => hid)
  rw [this, h]
  rfl

/-- C3 witness: a concrete one-row store upserted with a partial record. -/
theorem upsert_existing_idempotent_witness :
    getById [sampleLead] "k1" = some sampleLead ∧
      (upsert [sampleLead] { leadId := "k1", email := some (some "x@y.z") } 9).length = 1 :=
  ⟨by decide,
    (upsert_existing_idempotent [sampleLead]
      { leadId := "k1", email := some (some "x@y.z") } 9 sampleLead (by decide)).1⟩

/-- C2: for a lead selected for the score stage, (a) a computed score below
the configured minimum excludes the lead as `bad_fit` (it is not advanced);
(b) a passing score with zero angles left after exhaustion filtering does
not exclude the lead — it is put in cooldown for the configured default
number of days; (c) only a passing score with at least one active angle
advances the lead to `scored`. -/
theorem scoreStage_decision_spec (cfg : ScoreStageConfig) (parseDate : String → Option JsNum)
    (store : Store) (lead : Lead) (now : Nat)
    (hwf : (store.map Lead.leadId).Nodup) (hmem : lead ∈ store)
    (hsel : stageEligible (stageStatuses "score") now lead = true) :
    let r := scoreLead cfg.scoring parseDate (JsNum.ofNatQ now) lead
    let active := r.angles.filter (fun a => !lead.exhaustedAngles.contains a)
    let store' := scoreLeadStep cfg parseDate store lead now
    (ltIntNum r.score cfg.scoring.minScore = true →
      ∃ l', getById store' lead.leadId = some l' ∧
        l'.excludedReason = some .bad_fit ∧ l'.status = .excluded) ∧
    (ltIntNum r.score cfg.scoring.minScore = false → active = [] →
      ∃ l', getById store' lead.leadId = some l' ∧
        l'.excludedReason = none ∧ l'.status = .cooldown ∧
        l'.cooldownUntil = some (now + cfg.cooldownDefaultDays * 24 * 60 * 60 * 1000)) ∧
    (ltIntNum r.score cfg.scoring.minScore = false → active ≠ [] →
      ∃ l', getById store' lead.leadId = some l' ∧
        l'.status = .scored ∧ l'.score = some r.score ∧
        l'.scoreReasons = some r.reasons ∧ l'.activeAngles = active ∧
        l'.excludedReason = none ∧ l'.cooldownUntil = lead.cooldownUntil) := by
  intro r active store'
  have hid : getById store lead.leadId = some lead := getById_of_mem hwf hmem
  have hexr : lead.excludedReason = none := by
    unfold stageEligible at hsel
    simp only [Bool.and_eq_true] at hsel
    simpa [Option.isNone_iff_eq_none] using hsel.1.2
  have hdec : scoreStageDecision cfg parseDate now lead =
      (if ltIntNum r.score cfg.scoring.minScore then .excludedBadFit
       else if active.isEmpty then
         .cooldownSet (now + cfg.cooldownDefaultDays * 24 * 60 * 60 * 1000)
       else .advanced r.score r.reasons active) := rfl
  refine ⟨?_, ?_, ?_⟩
  · intro h
    have hd : applyScoreDecision store lead.leadId lead.exhaustedAngles
        (scoreStageDecision cfg parseDate now lead) now =
        exclude store lead.leadId .bad_fit now := by
      rw [hdec, if_pos (by simp [h])]
      rfl
    show ∃ l', getById (applyScoreDecision store lead.leadId lead.exhaustedAngles
        (scoreStageDecision cfg parseDate now lead) now) lead.leadId = some l' ∧ _
    rw [hd]
    unfold exclude
    exact ⟨_, getById_after_keyed store lead.leadId _ lead (fun _ hl => hl) hid, rfl, rfl⟩
  · intro h hempty
    have hd : applyScoreDecision store lead.leadId lead.exhaustedAngles
        (scoreStageDecision cfg parseDate now lead) now =
        setCooldown store lead.leadId
          (now + cfg.cooldownDefaultDays * 24 * 60 * 60 * 1000) now := by
      rw [hdec, if_neg (by simp [h]), if_pos (by simpa [List.isEmpty_iff] using hempty)]
      rfl
    show ∃ l', getById (applyScoreDecision store lead.leadId lead.exhaustedAngles
        (scoreStageDecision cfg parseDate now lead) now) lead.leadId = some l' ∧ _
    rw [hd]
    unfold setCooldown
    exact ⟨_, getById_after_keyed store lead.leadId _ lead (fun _ hl => hl) hid,
      hexr, rfl, rfl⟩
  · intro h hne
    have hd : applyScoreDecision store lead.leadId lead.exhaustedAngles
        (scoreStageDecision cfg parseDate now lead) now =
        updateStatus
          (updateAngles (updateScore store lead.leadId r.score r.reasons now)
            lead.leadId active lead.exhaustedAngles now)
          lead.leadId .scored now := by
      rw [hdec, if_neg (by simp [h]), if_neg (by simpa [List.isEmpty_iff] using hne)]
      rfl
    show ∃ l', getById (applyScoreDecision store lead.leadId lead.exhaustedAngles
        (scoreStageDecision cfg parseDate now lead) now) lead.leadId = some l' ∧ _
    rw [hd]
    unfold updateStatus updateAngles updateScore
    have h1 := getById_after_keyed store lead.leadId
      (fun l => { l with score := some r.score, scoreReasons := some r.reasons, updatedAt := now })
      lead (fun _ hl => hl) hid
    have h2 := getById_after_keyed _ lead.leadId
      (fun l => { l with activeAngles := active, exhaustedAngles := lead.exhaustedAngles, updatedAt := now })
      _ (fun _ hl => hl) h1
    have h3 := getById_after_keyed _ lead.leadId
      (fun l => { l with status := LeadStatus.scored, updatedAt := now }) _
      (fun _ hl => hl) h2
    exact ⟨_, h3, rfl, rfl, rfl, rfl, hexr, rfl⟩

/-- C2 witness: a lead with no website and the all-zero config passes the
minimum score with the `no_website` angle active and advances to `scored`. -/
theorem scoreStage_decision_spec_witness :
    ltIntNum (scoreLead zeroScoreCfg.scoring pdNone (JsNum.ofNatQ 50) enrichedLead).score
        zeroScoreCfg.scoring.minScore = false ∧
    ((scoreLead zeroScoreCfg.scoring pdNone (JsNum.ofNatQ 50) enrichedLead).angles.filter
        (fun a => !enrichedLead.exhaustedAngles.contains a) ≠ []) ∧
    ∃ l', getById (scoreLeadStep zeroScoreCfg pdNone [enrichedLead] enrichedLead 50)
        enrichedLead.leadId = some l' ∧ l'.status = .scored := by
  refine ⟨by decide, by decide, ?_⟩
  obtain ⟨l', hfind, hstatus, -, -, -, -, -⟩ :=
    (scoreStage_decision_spec zeroScoreCfg pdNone [enrichedLead] enrichedLead 50
      (by decide) (by decide) (by decide)).2.2 (by decide) (by decide)
  exact ⟨l', hfind, hstatus⟩

/-- C4: every lead returned by `getLeadsForStage` has a status in the
stage's predecessor set, a NULL exclusion reason, and a cooldown that is
NULL or already past; in particular a lead whose `excludedReason` is
`bad_fit` is never returned for the filter stage, whatever its status. -/
theorem getLeadsForStage_selection_spec (store : Store) (stage : String)
    (limit : Option Nat) (now : Nat) (l : Lead) :
    (l ∈ getLeadsForStage store stage limit now →
      l.status ∈ stageStatuses stage ∧ l.excludedReason = none ∧
        cooldownPassed l now = true) ∧
    (l.excludedReason = some .bad_fit → l ∉ getLeadsForStage store "filter" limit now) := by
  have main : ∀ st : String, l ∈ getLeadsForStage store st limit now →
      l.status ∈ stageStatuses st ∧ l.excludedReason = none ∧
        cooldownPassed l now = true := by
    intro st hmem
    have hf : l ∈ store.filter (stageEligible (stageStatuses st) now) := by
      unfold getLeadsForStage jsLimit at hmem
      rcases limit with _ | k
      · exact hmem
      · by_cases hk : k = 0
        · simpa [hk] using hmem
        · simp only [if_neg hk] at hmem
          exact List.mem_of_mem_take hmem
    have hp := (List.mem_filter.mp hf).2
    unfold stageEligible at hp
    simp only [Bool.and_eq_true] at hp
    refine ⟨?_, ?_, hp.2⟩
    · have : (stageStatuses st).elem l.status = true := hp.1.1
      exact List.elem_iff.mp this
    · simpa [Option.isNone_iff_eq_none] using hp.1.2
  refine ⟨main stage, ?_⟩
  intro hex hmem
  have := (main "filter" hmem).2.1
  rw [hex] at this
  cases this

/-- C4 witness: an excluded `bad_fit` lead with status `collected` is not
selected for the filter stage. -/
theorem getLeadsForStage_selection_spec_witness :
    excludedLead.excludedReason = some .bad_fit ∧
      excludedLead ∉ getLeadsForStage [excludedLead, sampleLead] "filter" none 5 :=
  ⟨rfl,
    (getLeadsForStage_selection_spec [excludedLead, sampleLead] "filter" none 5
      excludedLead).2 rfl⟩

/-- C6: filter evaluation is first-match-wins in this order: (1) a prior
exclusion reason is returned unchanged; (2) otherwise any source tag
case-insensitively matching an excluded category excludes with `bad_fit`;
(3) otherwise any excluded keyword appearing case-insensitively in the
business name excludes with `bad_fit`; (4) otherwise the first custom rule
(in declared order) whose predicate matches gives its reason, and rules
after the first match play no part; with no match the result is null. -/
theorem filterEvaluate_first_match_order (rt : String → String → Bool) (lead : Lead)
    (rules : List FilterRule) (cats keys : List String) :
    (∀ r₀, lead.excludedReason = some r₀ →
      filterEvaluate rt lead rules cats keys = some r₀) ∧
    (lead.excludedReason = none →
      lead.sourceMetadata.tags.any
          (fun c => (cats.map jsLower).contains (jsLower c)) = true →
      filterEvaluate rt lead rules cats keys = some .bad_fit) ∧
    (lead.excludedReason = none →
      lead.sourceMetadata.tags.any
          (fun c => (cats.map jsLower).contains (jsLower c)) = false →
      (keys.map jsLower).any (fun k => strIncludes (jsLower lead.businessName) k) = true →
      filterEvaluate rt lead rules cats keys = some .bad_fit) ∧
    (∀ pre rule post, lead.excludedReason = none →
      lead.sourceMetadata.tags.any
          (fun c => (cats.map jsLower).contains (jsLower c)) = false →
      (keys.map jsLower).any (fun k => strIncludes (jsLower lead.businessName) k) = false →
      rules = pre ++ rule :: post →
      (∀ r' ∈ pre, evaluateRule rt (leadToJs lead) r' = false) →
      evaluateRule rt (leadToJs lead) rule = true →
      filterEvaluate rt lead rules cats keys = some rule.reason) ∧
    (lead.excludedReason = none →
      lead.sourceMetadata.tags.any
          (fun c => (cats.map jsLower).contains (jsLower c)) = false →
      (keys.map jsLower).any (fun k => strIncludes (jsLower lead.businessName) k) = false →
      (∀ r' ∈ rules, evaluateRule rt (leadToJs lead) r' = false) →
      filterEvaluate rt lead rules cats keys = none) := by
  unfold filterEvaluate evaluateLead
  refine ⟨?_, ?_, ?_, ?_, ?_⟩
  · intro r₀ h
    rw [h]
  · intro h ht
    rw [h]
    simp only [ht, if_true]
  · intro h ht hk
    rw [h]
    simp only [ht, hk, if_true, if_false, Bool.false_eq_true]
  · intro pre rule post h ht hk hr hpre hx
    rw [h, hr]
    simp only [ht, hk, if_false, Bool.false_eq_true]
    rw [find?_first _ pre rule post hpre hx]
  · intro h ht hk hall
    rw [h]
    simp only [ht, hk, if_false, Bool.false_eq_true]
    rw [List.find?_eq_none.mpr (fun x hx => by simp [hall x hx])]

/-- C6 witness: a lead already carrying an exclusion reason has that reason
returned unchanged, before any category, keyword or custom rule runs. -/
theorem filterEvaluate_first_match_order_witness :
    excludedLead.excludedReason = some .bad_fit ∧
      filterEvaluate rtNone excludedLead [] ["spam"] ["junk"] = some .bad_fit :=
  ⟨rfl,
    (filterEvaluate_first_match_order rtNone excludedLead [] ["spam"] ["junk"]).1 _ rfl⟩

/-- C7 (evaluation of the code at the failing input): a lead whose cooldown
has passed, with no enrichment data and no stored score, is resumed at
`enriched` — not at `collected` as the spec requires.  `rowToLead` maps a
NULL `score` column to JS `null` and the guard `lead.score !== undefined`
accepts `null`, so the `collected` default is unreachable. -/
theorem refresh_reentry_always_enriched :
    cooledLead.enrichmentData = none ∧ cooledLead.score = none ∧
      cooledLead.cooldownUntil = some 5 ∧
      refreshNewStatus cooledLead = .enriched ∧
      (getById (processExpiredCooldowns false none [cooledLead] 10) "k3").map
          (fun l => (l.status, l.cooldownUntil)) =
        some (.enriched, none) :=
  ⟨rfl, rfl, rfl, rfl, by decide⟩

theorem stepCounters_preserves (s : CounterState) (e : CounterEvent)
    (h : s.counters.passed + s.counters.failed + s.pending ≤ s.counters.processed) :
    (stepCounters s e).counters.passed + (stepCounters s e).counters.failed +
      (stepCounters s e).pending ≤ (stepCounters s e).counters.processed := by
  cases e with
  | item o => cases o <;> simp [stepCounters] <;> omega
  | discoverItem =>
    simp only [stepCounters]
    omega
  | flush =>
    simp only [stepCounters]
    omega

theorem stepCounters_mono (s : CounterState) (e : CounterEvent) :
    s.counters.processed ≤ (stepCounters s e).counters.processed ∧
      s.counters.passed ≤ (stepCounters s e).counters.passed ∧
      s.counters.failed ≤ (stepCounters s e).counters.failed := by
  cases e with
  | item o => cases o <;> simp [stepCounters]
  | discoverItem => simp [stepCounters]
  | flush => simp [stepCounters]

theorem foldl_counters_preserves (events : List CounterEvent) (s : CounterState)
    (h : s.counters.passed + s.counters.failed + s.pending ≤ s.counters.processed) :
    (events.foldl stepCounters s).counters.passed +
        (events.foldl stepCounters s).counters.failed +
        (events.foldl stepCounters s).pending ≤
      (events.foldl stepCounters s).counters.processed := by
  induction events generalizing s with
  | nil => exact h
  | cons e rest ih => exact ih _ (stepCounters_preserves s e h)

theorem foldl_counters_mono (events : List CounterEvent) (s : CounterState) :
    s.counters.processed ≤ (events.foldl stepCounters s).counters.processed ∧
      s.counters.passed ≤ (events.foldl stepCounters s).counters.passed ∧
      s.counters.failed ≤ (events.foldl stepCounters s).counters.failed := by
  induction events generalizing s with
  | nil => exact ⟨le_refl _, le_refl _, le_refl _⟩
  | cons e rest ih =>
    have h1 := stepCounters_mono s e
    have h2 := ih (stepCounters s e)
    exact ⟨h1.1.trans h2.1, h1.2.1.trans h2.2.1, h1.2.2.trans h2.2.2⟩

/-- C8: at every observed checkpoint of a run (every prefix of its counter
events — the points where `updateProgress` or `complete` write the
counters), `processed ≥ passed + failed`, and all three counters are
non-decreasing over the run's lifetime. -/
theorem runCounters_invariant_monotone (events : List CounterEvent) (n m : Nat)
    (hnm : n ≤ m) :
    ((runCounterState (events.take n)).counters.passed +
        (runCounterState (events.take n)).counters.failed ≤
      (runCounterState (events.take n)).counters.processed) ∧
    ((runCounterState (events.take n)).counters.processed ≤
        (runCounterState (events.take m)).counters.processed ∧
      (runCounterState (events.take n)).counters.passed ≤
        (runCounterState (events.take m)).counters.passed ∧
      (runCounterState (events.take n)).counters.failed ≤
        (runCounterState (events.take m)).counters.failed) := by
  constructor
  · have h := foldl_counters_preserves (events.take n) initialCounters (by decide)
    unfold runCounterState
    omega
  · have hsplit : events.take m = events.take n ++ (events.drop n).take (m - n) := by
      conv_lhs => rw [show m = n + (m - n) by omega]
      exact List.take_add events n (m - n)
    unfold runCounterState
    rw [hsplit, List.foldl_append]
    exact foldl_counters_mono _ _

/-- C8 witness: a three-event trace observed after its first and second
events. -/
theorem runCounters_invariant_monotone_witness :
    (1 : Nat) ≤ 2 ∧
      ((runCounterState ([CounterEvent.item .passed, CounterEvent.item .failed,
            CounterEvent.flush].take 1)).counters.passed +
          (runCounterState ([CounterEvent.item .passed, CounterEvent.item .failed,
            CounterEvent.flush].take 1)).counters.failed ≤
        (runCounterState ([CounterEvent.item .passed, CounterEvent.item .failed,
            CounterEvent.flush].take 1)).counters.processed) :=
  ⟨by decide,
    (runCounters_invariant_monotone
      [CounterEvent.item .passed, CounterEvent.item .failed, CounterEvent.flush]
      1 2 (by decide)).1⟩

/-- C9: stage selection is stable — the returned leads are a subsequence of
the store in rowid (discovery) order — and repeated runs make forward
progress: if the leads returned by one call are each made ineligible (as
processing them does) while untouched rows are left unchanged, the next
call returns only leads disjoint (by id) from the previous batch. -/
theorem getLeadsForStage_stable_progress (store : Store) (stage : String)
    (limit : Option Nat) (now now' : Nat) (u : Lead → Lead)
    (hwf : (store.map Lead.leadId).Nodup)
    (hu1 : ∀ l ∈ getLeadsForStage store stage limit now,
      stageEligible (stageStatuses stage) now' (u l) = false)
    (hu2 : ∀ l ∈ store, l ∉ getLeadsForStage store stage limit now → u l = l) :
    List.Sublist (getLeadsForStage store stage limit now) store ∧
      ∀ x ∈ getLeadsForStage (store.map u) stage limit now',
        ∀ y ∈ getLeadsForStage store stage limit now, x.leadId ≠ y.leadId := by
  have hsub : ∀ (s : Store) (nw : Nat),
      List.Sublist (getLeadsForStage s stage limit nw) s := by
    intro s nw
    unfold getLeadsForStage jsLimit
    rcases limit with _ | k
    · exact List.filter_sublist s
    · by_cases hk : k = 0
      · simp [hk]
      · simp only [if_neg hk]
        exact (List.take_sublist _ _).trans (List.filter_sublist s)
  refine ⟨hsub store now, ?_⟩
  intro x hx y hy heq
  have hx' : x ∈ (store.map u).filter (stageEligible (stageStatuses stage) now') := by
    unfold getLeadsForStage jsLimit at hx
    rcases limit with _ | k
    · exact hx
    · by_cases hk : k = 0
      · simpa [hk] using hx
      · simp only [if_neg hk] at hx
        exact List.mem_of_mem_take hx
  have hmx : x ∈ store.map u := (List.mem_filter.mp hx').1
  have hex : stageEligible (stageStatuses stage) now' x = true := (List.mem_filter.mp hx').2
  obtain ⟨l, hl, hlx⟩ := List.mem_map.mp hmx
  by_cases hmem : l ∈ getLeadsForStage store stage limit now
  · have hfalse := hu1 l hmem
    rw [hlx] at hfalse
    rw [hfalse] at hex
    cases hex
  · have hul : u l = l := hu2 l hl hmem
    have hxl : x = l := by rw [← hlx, hul]
    have hys : y ∈ store := (hsub store now).subset hy
    have hly : l = y :=
      List.inj_on_of_nodup_map hwf (hxl ▸ hl) hys (by rw [← hxl, heq])
    exact hmem (hly ▸ hy)

/-- Renders the first selected lead ineligible, as the filter stage does
when it advances it. -/
def markFiltered : Lead → Lead :=
  fun l => if l.leadId = "k1" then { l with status := .filtered } else l

/-- A second eligible lead sitting behind `sampleLead` in discovery order. -/
def sampleLeadB : Lead := { sampleLead with leadId := "k5" }

/-- C9 witness: with a limit of 1 the first call returns the head lead;
after processing it, the next call returns only later leads. -/
theorem getLeadsForStage_stable_progress_witness :
    List.Sublist (getLeadsForStage [sampleLead, sampleLeadB] "filter" (some 1) 0)
        [sampleLead, sampleLeadB] ∧
      ∀ x ∈ getLeadsForStage ([sampleLead, sampleLeadB].map markFiltered) "filter"
          (some 1) 1,
        ∀ y ∈ getLeadsForStage [sampleLead, sampleLeadB] "filter" (some 1) 0,
          x.leadId ≠ y.leadId :=
  getLeadsForStage_stable_progress [sampleLead, sampleLeadB] "filter" (some 1) 0 1
    markFiltered (by decide) (by decide) (by decide)

/-- C10: (a) an upsert partial whose `email` key is present but holds
`undefined` overwrites the stored email with NULL rather than preserving
it; (b) `createFromRaw` always includes the contact keys with the raw
record's values, so re-collecting a business whose raw record carries no
email, phone or website erases all three stored fields (in particular an
email or phone promoted onto the lead by the enrich stage). -/
theorem upsert_undefined_overwrites_contacts (store : Store) (raw : RawBusinessData)
    (source runId : String) (now : Nat) (l0 : Lead)
    (he : raw.email = none) (hp : raw.phone = none) (hw : raw.website = none)
    (hfound : getById store (createFromRawPartial raw source runId).leadId = some l0) :
    (∀ (existing : Lead) (p : PartialLead) (n : Nat),
      p.email = some none → (mergeLead existing p n).email = none) ∧
    (∃ l', getById (collectRaw store raw source runId now)
        (createFromRawPartial raw source runId).leadId = some l' ∧
      l'.email = none ∧ l'.phone = none ∧ l'.website = none ∧
      l'.status = .collected) := by
  constructor
  · intro existing p n hpe
    show spreadOpt p.email existing.email = none
    rw [hpe]
    rfl
  · have hid : l0.leadId = (createFromRawPartial raw source runId).leadId := by
      have := List.find?_some hfound
      simpa using this
    have h1 : getById (createFromRaw store raw source runId now)
        (createFromRawPartial raw source runId).leadId =
        some (mergeLead l0 (createFromRawPartial raw source runId) now) := by
      unfold createFromRaw upsert
      rw [hfound]
      exact getById_after_keyed store _ _ l0 (fun _ _ => hid) hfound
    have h2 : getById (collectRaw store raw source runId now)
        (createFromRawPartial raw source runId).leadId =
        some { mergeLead l0 (createFromRawPartial raw source runId) now with
               status := LeadStatus.collected, updatedAt := now } := by
      show getById (updateStatus (createFromRaw store raw source runId now)
        (createFromRawPartial raw source runId).leadId LeadStatus.collected now) _ = _
      unfold updateStatus
      exact getById_after_keyed _ _ _ _ (fun _ hl => hl) h1
    refine ⟨_, h2, ?_, ?_, ?_, rfl⟩
    · show spreadOpt (some raw.email) l0.email = none
      rw [he]
      rfl
    · show spreadOpt (some raw.phone) l0.phone = none
      rw [hp]
      rfl
    · show spreadOpt (some raw.website) l0.website = none
      rw [hw]
      rfl

set_option maxRecDepth 100000 in
/-- C10 witness: after enrich promoted a scraped email onto the lead,
re-collecting the same business from a contact-less raw record leaves the
stored email, phone and website NULL. -/
theorem upsert_undefined_overwrites_contacts_witness :
    rawNoContact.email = none ∧ rawNoContact.phone = none ∧
      rawNoContact.website = none ∧
      (getById acmeEnriched acmeId).map Lead.email = some (some "info@acme.example") ∧
      (∃ l', getById (collectRaw acmeEnriched rawNoContact "yelp" "run2" 103)
          (createFromRawPartial rawNoContact "yelp" "run2").leadId = some l' ∧
        l'.email = none ∧ l'.phone = none ∧ l'.website = none ∧
        l'.status = .collected) := by
  refine ⟨rfl, rfl, rfl, by decide, ?_⟩
  have hs : (getById acmeEnriched
      (createFromRawPartial rawNoContact "yelp" "run2").leadId).isSome := by decide
  obtain ⟨l0, hl0⟩ := Option.isSome_iff_exists.mp hs
  exact (upsert_undefined_overwrites_contacts acmeEnriched rawNoContact "yelp" "run2"
    _ l0 rfl rfl rfl hl0).2

/-! ## Row-level lemmas for the status state machine (C5) -/

theorem get?_map_keyed {store : Store} {i : Nat} {l : Lead} (f : Lead → Lead)
    (h : store.get? i = some l) : (store.map f).get? i = some (f l) := by
  rw [List.get?_map, h]
  rfl

theorem get_eq_of_getById {store : Store} {id : String} {lead : Lead} {i : Nat}
    (hwf : (store.map Lead.leadId).Nodup) (hfind : getById store id = some lead)
    (hi : i < store.length) (hid : (store.get ⟨i, hi⟩).leadId = id) :
    store.get ⟨i, hi⟩ = lead := by
  have hmem : store.get ⟨i, hi⟩ ∈ store := store.get_mem i hi
  have hlead : lead ∈ store := List.mem_of_find?_eq_some hfind
  have hlid : lead.leadId = id := by simpa using List.find?_some hfind
  exact List.inj_on_of_nodup_map hwf hmem hlead (by rw [hid, hlid])

theorem upsert_found_eq_map (store : Store) (p : PartialLead) (now : Nat) (existing : Lead)
    (h : getById store p.leadId = some existing) :
    upsert store p now = store.map
      (fun l => if l.leadId = p.leadId then mergeLead existing p now else l) := by
  simp only [upsert, h]

theorem map_keyed_comp (store : Store) (k : String) (g₁ g₂ : Lead → Lead)
    (hg₁ : ∀ l, l.leadId = k → (g₁ l).leadId = k) :
    (store.map (fun l => if l.leadId = k then g₁ l else l)).map
        (fun l => if l.leadId = k then g₂ l else l) =
      store.map (fun l => if l.leadId = k then g₂ (g₁ l) else l) := by
  rw [List.map_map]
  apply List.map_congr_left
  intro l _
  by_cases h : l.leadId = k
  · simp [Function.comp, h, hg₁ l h]
  · simp [Function.comp, h]

theorem specAllowedEdge_refl (a : LeadStatus) : specAllowedEdge a a = true := by
  simp [specAllowedEdge]

theorem amendedEdgeOk_of_spec {a b : LeadStatus} (op : PipelineOp)
    (h : specAllowedEdge a b = true) : amendedEdgeOk op a b = true := by
  simp [amendedEdgeOk, h]

theorem amendedEdgeOk_refl (op : PipelineOp) (a : LeadStatus) :
    amendedEdgeOk op a a = true :=
  amendedEdgeOk_of_spec op (specAllowedEdge_refl a)

theorem specAllowedEdge_to_excluded (a : LeadStatus) :
    specAllowedEdge a .excluded = true := by
  simp [specAllowedEdge]

theorem specAllowedEdge_to_cooldown (a : LeadStatus) :
    specAllowedEdge a .cooldown = true := by
  simp [specAllowedEdge]

theorem amendedEdgeOk_collect_collected (raw : RawBusinessData) (source runId : String)
    (a : LeadStatus) : amendedEdgeOk (.collect raw source runId) a .collected = true := by
  simp [amendedEdgeOk]

theorem amendedEdgeOk_refresh_target (reset : Bool) (id : String) (a b : LeadStatus)
    (h : b = .collected ∨ b = .enriched) :
    amendedEdgeOk (.refreshExpired reset id) a b = true := by
  rcases h with h | h <;> subst h <;> simp [amendedEdgeOk]

theorem refreshNewStatus_eq_enriched (lead : Lead) :
    refreshNewStatus lead = .enriched := by
  unfold refreshNewStatus
  cases h : lead.score <;> simp [h]

/-- The common shape of every single-lead store write: rows with other ids
are untouched, the keyed row is rewritten by `g`. -/
theorem keyedMap_edge (op : PipelineOp) (store : Store) (k : String) (g : Lead → Lead)
    (i : Nat) (hi : i < store.length) (lead : Lead)
    (hwf : (store.map Lead.leadId).Nodup)
    (hfind : getById store k = some lead)
    (hedge : amendedEdgeOk op lead.status (g lead).status = true) :
    ∃ l', (store.map (fun l => if l.leadId = k then g l else l)).get? i = some l' ∧
      amendedEdgeOk op ((store.get ⟨i, hi⟩).status) l'.status = true := by
  have h0 : store.get? i = some (store.get ⟨i, hi⟩) := List.get?_eq_get hi
  refine ⟨_, get?_map_keyed _ h0, ?_⟩
  by_cases hrow : (store.get ⟨i, hi⟩).leadId = k
  · have hrr := get_eq_of_getById hwf hfind hi hrow
    rw [if_pos hrow, hrr]
    exact hedge
  · rw [if_neg hrow]
    exact amendedEdgeOk_refl op _

/-- The unchanged-store case. -/
theorem unchanged_edge (op : PipelineOp) (store : Store) (i : Nat) (hi : i < store.length) :
    ∃ l', store.get? i = some l' ∧
      amendedEdgeOk op ((store.get ⟨i, hi⟩).status) l'.status = true :=
  ⟨_, List.get?_eq_get hi, amendedEdgeOk_refl op _⟩

/-- `s` is `store` with exactly the row keyed `k` rewritten by `g`, and `g`
preserves the key. -/
def KeyedForm (store s : Store) (k : String) (g : Lead → Lead) : Prop :=
  (s = store.map (fun l => if l.leadId = k then g l else l)) ∧
    (∀ l, l.leadId = k → (g l).leadId = k)

theorem keyedForm_init (store : Store) (k : String) :
    KeyedForm store store k (fun l => l) :=
  ⟨by simp, fun _ h => h⟩

theorem keyedForm_step {store s : Store} {k : String} {g : Lead → Lead}
    (h : KeyedForm store s k g) (g₂ : Lead → Lead)
    (hg₂ : ∀ l, l.leadId = k → (g₂ l).leadId = k) :
    KeyedForm store (s.map (fun l => if l.leadId = k then g₂ l else l)) k
      (fun l => g₂ (g l)) :=
  ⟨by rw [h.1, map_keyed_comp store k g g₂ h.2], fun l hl => hg₂ _ (h.2 l hl)⟩

theorem keyedForm_getById {store s : Store} {k : String} {g : Lead → Lead}
    (h : KeyedForm store s k g) (lead : Lead) (hfind : getById store k = some lead) :
    getById s k = some (g lead) := by
  rw [h.1]
  exact getById_after_keyed store k g lead h.2 hfind

theorem keyedForm_upsert {store s : Store} {k : String} {g : Lead → Lead}
    (h : KeyedForm store s k g) (lead : Lead) (hfind : getById store k = some lead)
    (p : PartialLead) (hp : p.leadId = k) (now : Nat) :
    KeyedForm store (upsert s p now) k (fun _ => mergeLead (g lead) p now) := by
  have hlid : lead.leadId = k := by simpa using List.find?_some hfind
  have hfound : getById s p.leadId = some (g lead) := by
    rw [hp]
    exact keyedForm_getById h lead hfind
  have hgl : (mergeLead (g lead) p now).leadId = k := h.2 lead hlid
  constructor
  · rw [upsert_found_eq_map s p now (g lead) hfound, hp, h.1,
      map_keyed_comp store k g (fun _ => mergeLead (g lead) p now) h.2]
  · intro l _
    exact hgl

theorem keyedForm_edge {store s : Store} {k : String} {g : Lead → Lead}
    (op : PipelineOp) (h : KeyedForm store s k g) (lead : Lead)
    (hfind : getById store k = some lead) (hwf : (store.map Lead.leadId).Nodup)
    (i : Nat) (hi : i < store.length)
    (hedge : amendedEdgeOk op lead.status ((g lead).status) = true) :
    ∃ l', s.get? i = some l' ∧
      amendedEdgeOk op ((store.get ⟨i, hi⟩).status) l'.status = true := by
  rw [h.1]
  exact keyedMap_edge op store k g i hi lead hwf hfind hedge

/-- `EnrichStage`'s per-lead step is a single keyed rewrite ending at
status `enriched`. -/
theorem enrichLeadStep_keyedForm (store : Store) (lead : Lead) (ws : Option ScrapeFound)
    (now : Nat) (hfind : getById store lead.leadId = some lead) :
    ∃ g, KeyedForm store (enrichLeadStep store lead ws now) lead.leadId g ∧
      (g lead).status = .enriched := by
  simp only [enrichLeadStep, updateEnrichment, updateStatus]
  have h1 := keyedForm_step (keyedForm_init store lead.leadId)
    (fun l => { l with enrichmentData := some (buildEnrichment lead ws), updatedAt := now })
    (fun _ hl => hl)
  by_cases hc1 : (!(buildEnrichment lead ws).emails.isEmpty && !strTruthy lead.email) = true
  · rw [if_pos hc1]
    have h2 := keyedForm_upsert h1 lead hfind
      { leadId := lead.leadId, email := some (buildEnrichment lead ws).emails.head? }
      rfl now
    by_cases hc2 : (!(buildEnrichment lead ws).phones.isEmpty && !strTruthy lead.phone) = true
    · rw [if_pos hc2]
      have h3 := keyedForm_upsert h2 lead hfind
        { leadId := lead.leadId, phone := some (buildEnrichment lead ws).phones.head? }
        rfl now
      exact ⟨_, keyedForm_step h3
        (fun l => { l with status := LeadStatus.enriched, updatedAt := now })
        (fun _ hl => hl), rfl⟩
    · rw [if_neg hc2]
      exact ⟨_, keyedForm_step h2
        (fun l => { l with status := LeadStatus.enriched, updatedAt := now })
        (fun _ hl => hl), rfl⟩
  · rw [if_neg hc1]
    by_cases hc2 : (!(buildEnrichment lead ws).phones.isEmpty && !strTruthy lead.phone) = true
    · rw [if_pos hc2]
      have h3 := keyedForm_upsert h1 lead hfind
        { leadId := lead.leadId, phone := some (buildEnrichment lead ws).phones.head? }
        rfl now
      exact ⟨_, keyedForm_step h3
        (fun l => { l with status := LeadStatus.enriched, updatedAt := now })
        (fun _ hl => hl), rfl⟩
    · rw [if_neg hc2]
      exact ⟨_, keyedForm_step h1
        (fun l => { l with status := LeadStatus.enriched, updatedAt := now })
        (fun _ hl => hl), rfl⟩

/-- `OutputStage`'s per-lead state update ends at status `cooldown` (the
cooldown write follows the `output` write). -/
theorem outputLeadStep_keyedForm (store : Store) (lead : Lead) (days now : Nat) :
    ∃ g, KeyedForm store (outputLeadStep days store lead now) lead.leadId g ∧
      (g lead).status = .cooldown := by
  simp only [outputLeadStep, markOutput, setCooldown]
  have h1 := keyedForm_step (keyedForm_init store lead.leadId)
    (fun l => { l with status := LeadStatus.output, lastOutputAt := some now, updatedAt := now })
    (fun _ hl => hl)
  exact ⟨_, keyedForm_step h1
    (fun l => { l with cooldownUntil := some (now + days * 24 * 60 * 60 * 1000), status := LeadStatus.cooldown, updatedAt := now })
    (fun _ hl => hl), rfl⟩

/-- `RefreshStage.processExpiredCooldowns`'s per-lead step ends at status
`enriched` (for every lead, by `refreshNewStatus_eq_enriched`). -/
theorem refreshExpiredStep_keyedForm (store : Store) (lead : Lead) (reset : Bool)
    (now : Nat) (hfind : getById store lead.leadId = some lead) :
    ∃ g, KeyedForm store (refreshExpiredStep reset store lead now) lead.leadId g ∧
      (g lead).status = .enriched := by
  simp only [refreshExpiredStep, updateAngles, updateStatus]
  have h1 := keyedForm_upsert (keyedForm_init store lead.leadId) lead hfind
    { leadId := lead.leadId, cooldownUntil := some none } rfl now
  by_cases hr : reset = true
  · rw [if_pos hr]
    have h2 := keyedForm_step h1
      (fun l => { l with activeAngles := ([] : List AngleType), exhaustedAngles := ([] : List AngleType), updatedAt := now })
      (fun _ hl => hl)
    refine ⟨_, keyedForm_step h2
      (fun l => { l with status := refreshNewStatus lead, updatedAt := now })
      (fun _ hl => hl), ?_⟩
    exact refreshNewStatus_eq_enriched lead
  · rw [if_neg hr]
    refine ⟨_, keyedForm_step h1
      (fun l => { l with status := refreshNewStatus lead, updatedAt := now })
      (fun _ hl => hl), ?_⟩
    exact refreshNewStatus_eq_enriched lead

/-- `processSignalChanges`'s per-lead step only touches timestamps (the
signal-change hook always reports no change). -/
theorem refreshSignalStep_keyedForm (store : Store) (lead : Lead) (now : Nat)
    (hfind : getById store lead.leadId = some lead) :
    ∃ g, KeyedForm store (refreshSignalStep store lead now) lead.leadId g ∧
      (g lead).status = lead.status := by
  simp only [refreshSignalStep, checkSignalChanges]
  rw [if_neg (by simp)]
  refine ⟨_, keyedForm_upsert (keyedForm_init store lead.leadId) lead hfind
    { leadId := lead.leadId } rfl now, ?_⟩
  rfl

/-- `FilterStage`'s per-lead step either holds the lead (cooldown running),
or is a single keyed rewrite ending at `excluded` or `filtered`. -/
theorem filterLeadStep_keyedForm (rt : String → String → Bool) (rules : List FilterRule)
    (cats keys : List String) (store : Store) (lead : Lead) (now : Nat) :
    filterLeadStep rt rules cats keys store lead now = store ∨
      ∃ g, KeyedForm store (filterLeadStep rt rules cats keys store lead now)
          lead.leadId g ∧
        ((g lead).status = .excluded ∨ (g lead).status = .filtered) := by
  cases hev : filterEvaluate rt lead rules cats keys with
  | some reason =>
    right
    have hstep : filterLeadStep rt rules cats keys store lead now =
        exclude store lead.leadId reason now := by
      unfold filterLeadStep
      simp [hev]
    rw [hstep]
    simp only [exclude]
    exact ⟨_, keyedForm_step (keyedForm_init store lead.leadId)
      (fun l => { l with excludedReason := some reason, status := LeadStatus.excluded, updatedAt := now })
      (fun _ hl => hl), Or.inl rfl⟩
  | none =>
    cases hcd : lead.cooldownUntil with
    | some t =>
      by_cases ht : t > now
      · left
        unfold filterLeadStep
        simp [hev, hcd, ht]
      · right
        have hstep : filterLeadStep rt rules cats keys store lead now =
            updateStatus store lead.leadId .filtered now := by
          unfold filterLeadStep
          simp [hev, hcd, ht]
        rw [hstep]
        simp only [updateStatus]
        exact ⟨_, keyedForm_step (keyedForm_init store lead.leadId)
          (fun l => { l with status := LeadStatus.filtered, updatedAt := now })
          (fun _ hl => hl), Or.inr rfl⟩
    | none =>
      right
      have hstep : filterLeadStep rt rules cats keys store lead now =
          updateStatus store lead.leadId .filtered now := by
        unfold filterLeadStep
        simp [hev, hcd]
      rw [hstep]
      simp only [updateStatus]
      exact ⟨_, keyedForm_step (keyedForm_init store lead.leadId)
        (fun l => { l with status := LeadStatus.filtered, updatedAt := now })
        (fun _ hl => hl), Or.inr rfl⟩

/-- `ScoreStage`'s per-lead step is a single keyed rewrite ending at
`excluded`, `cooldown` or `scored`. -/
theorem scoreLeadStep_keyedForm (cfg : ScoreStageConfig) (parseDate : String → Option JsNum)
    (store : Store) (lead : Lead) (now : Nat) :
    ∃ g, KeyedForm store (scoreLeadStep cfg parseDate store lead now) lead.leadId g ∧
      ((g lead).status = .excluded ∨ (g lead).status = .cooldown ∨
        (g lead).status = .scored) := by
  unfold scoreLeadStep
  cases hd : scoreStageDecision cfg parseDate now lead with
  | excludedBadFit =>
    simp only [applyScoreDecision, exclude]
    exact ⟨_, keyedForm_step (keyedForm_init store lead.leadId)
      (fun l => { l with excludedReason := some ExclusionReason.bad_fit, status := LeadStatus.excluded, updatedAt := now })
      (fun _ hl => hl), Or.inl rfl⟩
  | cooldownSet t =>
    simp only [applyScoreDecision, setCooldown]
    exact ⟨_, keyedForm_step (keyedForm_init store lead.leadId)
      (fun l => { l with cooldownUntil := some t, status := LeadStatus.cooldown, updatedAt := now })
      (fun _ hl => hl), Or.inr (Or.inl rfl)⟩
  | advanced s rs act =>
    simp only [applyScoreDecision, updateScore, updateAngles, updateStatus]
    have h1 := keyedForm_step (keyedForm_init store lead.leadId)
      (fun l => { l with score := some s, scoreReasons := some rs, updatedAt := now })
      (fun _ hl => hl)
    have h2 := keyedForm_step h1
      (fun l => { l with activeAngles := act, exhaustedAngles := lead.exhaustedAngles, updatedAt := now })
      (fun _ hl => hl)
    exact ⟨_, keyedForm_step h2
      (fun l => { l with status := LeadStatus.scored, updatedAt := now })
      (fun _ hl => hl), Or.inr (Or.inr rfl)⟩

/-- `CollectStage`'s per-record step: when the identity already exists it is
a single keyed rewrite of that row ending at `collected`; otherwise it
appends a fresh row and rewrites nothing that was already stored. -/
theorem collectRaw_keyedForm (store : Store) (raw : RawBusinessData)
    (source runId : String) (now : Nat) :
    (∃ existing g,
      getById store (generateLeadId (canonicalizeName raw.name) raw.city raw.state
        raw.country) = some existing ∧
      KeyedForm store (collectRaw store raw source runId now)
        (generateLeadId (canonicalizeName raw.name) raw.city raw.state raw.country) g ∧
      (g existing).status = .collected) ∨
    (getById store (generateLeadId (canonicalizeName raw.name) raw.city raw.state
        raw.country) = none ∧
      collectRaw store raw source runId now =
        (store ++ [insertLead (createFromRawPartial raw source runId) now]).map
          (fun l => if l.leadId = generateLeadId (canonicalizeName raw.name) raw.city
              raw.state raw.country
            then { l with status := LeadStatus.collected, updatedAt := now } else l)) := by
  have hpk : (createFromRawPartial raw source runId).leadId =
      generateLeadId (canonicalizeName raw.name) raw.city raw.state raw.country := rfl
  cases hfind : getById store
      (generateLeadId (canonicalizeName raw.name) raw.city raw.state raw.country) with
  | some existing =>
    left
    have hstep : collectRaw store raw source runId now =
        updateStatus (upsert store (createFromRawPartial raw source runId) now)
          (generateLeadId (canonicalizeName raw.name) raw.city raw.state raw.country)
          .collected now := rfl
    rw [hstep]
    simp only [updateStatus]
    have h1 := keyedForm_upsert
      (keyedForm_init store
        (generateLeadId (canonicalizeName raw.name) raw.city raw.state raw.country))
      existing hfind (createFromRawPartial raw source runId) hpk now
    exact ⟨existing, _, rfl, keyedForm_step h1
      (fun l => { l with status := LeadStatus.collected, updatedAt := now })
      (fun _ hl => hl), rfl⟩
  | none =>
    right
    refine ⟨rfl, ?_⟩
    simp only [collectRaw, createFromRaw, updateStatus, upsert, hpk, hfind]

/-- C5 (amended): each per-lead pipeline operation moves every stored
lead's status only along the spec §4.5 edges — staying put, forward along
`new → collected → filtered → enriched → scored → output`, into
`excluded`/`cooldown`, or out of `cooldown` into
`collected`/`enriched`/`filtered` — except for the two edges the code
actually adds: re-collection of an existing lead resets any status to
`collected` (through a transient `new` written by the upsert), and the
expired-cooldown sweep keys on `cooldownUntil` alone, re-entering a lead at
`enriched` (or `collected`) from whatever status it holds. -/
theorem applyOp_status_edge_amended (rt : String → String → Bool)
    (parseDate : String → Option JsNum) (op : PipelineOp) (store : Store) (now : Nat)
    (hwf : (store.map Lead.leadId).Nodup) (i : Nat) (hi : i < store.length) :
    ∃ l', (applyOp rt parseDate op store now).get? i = some l' ∧
      amendedEdgeOk op ((store.get ⟨i, hi⟩).status) l'.status = true := by
  cases op with
  | collect raw source runId =>
    rcases collectRaw_keyedForm store raw source runId now with
      ⟨existing, g, hfind, hK, hst⟩ | ⟨hfind, hstep⟩
    · exact keyedForm_edge (.collect raw source runId) hK existing hfind hwf i hi
        (by rw [hst]; exact amendedEdgeOk_collect_collected raw source runId _)
    · show ∃ l', (collectRaw store raw source runId now).get? i = some l' ∧ _
      rw [hstep, List.map_append]
      have h0 : store.get? i = some (store.get ⟨i, hi⟩) := List.get?_eq_get hi
      have hrow : ¬(store.get ⟨i, hi⟩).leadId =
          generateLeadId (canonicalizeName raw.name) raw.city raw.state raw.country := by
        have hmem := store.get_mem i hi
        have := List.find?_eq_none.mp hfind _ hmem
        simpa using this
      refine ⟨store.get ⟨i, hi⟩, ?_, amendedEdgeOk_refl _ _⟩
      rw [List.get?_append (by simpa using hi), get?_map_keyed _ h0, if_neg hrow]
  | filterStep rules cats keys id =>
    cases hfind : getById store id with
    | none =>
      have happ : applyOp rt parseDate (.filterStep rules cats keys id) store now =
          store := by simp [applyOp, hfind]
      rw [happ]
      exact unchanged_edge _ store i hi
    | some lead =>
      have hlid : lead.leadId = id := by simpa using List.find?_some hfind
      have hfind' : getById store lead.leadId = some lead := by
        rw [hlid]
        exact hfind
      cases hg : stageEligible (stageStatuses "filter") now lead with
      | false =>
        have happ : applyOp rt parseDate (.filterStep rules cats keys id) store now =
            store := by simp [applyOp, hfind, hg]
        rw [happ]
        exact unchanged_edge _ store i hi
      | true =>
        have happ : applyOp rt parseDate (.filterStep rules cats keys id) store now =
            filterLeadStep rt rules cats keys store lead now := by
          simp [applyOp, hfind, hg]
        rw [happ]
        rcases filterLeadStep_keyedForm rt rules cats keys store lead now with
          hsame | ⟨g, hK, hst⟩
        · rw [hsame]
          exact unchanged_edge _ store i hi
        · have hstat : lead.status = .collected := by
            have hg' : stageEligible [LeadStatus.collected] now lead = true := hg
            unfold stageEligible at hg'
            simp only [Bool.and_eq_true] at hg'
            have helem : List.elem lead.status [LeadStatus.collected] = true := hg'.1.1
            simpa using List.elem_iff.mp helem
          apply keyedForm_edge _ hK lead hfind' hwf i hi
          rcases hst with hst | hst <;> rw [hst, hstat]
          · exact amendedEdgeOk_of_spec _ (specAllowedEdge_to_excluded _)
          · exact amendedEdgeOk_of_spec _ (by decide)
  | enrichStep id ws =>
    cases hfind : getById store id with
    | none =>
      have happ : applyOp rt parseDate (.enrichStep id ws) store now = store := by
        simp [applyOp, hfind]
      rw [happ]
      exact unchanged_edge _ store i hi
    | some lead =>
      have hlid : lead.leadId = id := by simpa using List.find?_some hfind
      have hfind' : getById store lead.leadId = some lead := by
        rw [hlid]
        exact hfind
      cases hg : stageEligible (stageStatuses "enrich") now lead with
      | false =>
        have happ : applyOp rt parseDate (.enrichStep id ws) store now = store := by
          simp [applyOp, hfind, hg]
        rw [happ]
        exact unchanged_edge _ store i hi
      | true =>
        have happ : applyOp rt parseDate (.enrichStep id ws) store now =
            enrichLeadStep store lead ws now := by
          simp [applyOp, hfind, hg]
        rw [happ]
        obtain ⟨g, hK, hst⟩ := enrichLeadStep_keyedForm store lead ws now hfind'
        have hstat : lead.status = .filtered := by
          have hg' : stageEligible [LeadStatus.filtered] now lead = true := hg
          unfold stageEligible at hg'
          simp only [Bool.and_eq_true] at hg'
          have helem : List.elem lead.status [LeadStatus.filtered] = true := hg'.1.1
          simpa using List.elem_iff.mp helem
        exact keyedForm_edge _ hK lead hfind' hwf i hi
          (by rw [hst, hstat]; exact amendedEdgeOk_of_spec _ (by decide))
  | scoreStep cfg id =>
    cases hfind : getById store id with
    | none =>
      have happ : applyOp rt parseDate (.scoreStep cfg id) store now = store := by
        simp [applyOp, hfind]
      rw [happ]
      exact unchanged_edge _ store i hi
    | some lead =>
      have hlid : lead.leadId = id := by simpa using List.find?_some hfind
      have hfind' : getById store lead.leadId = some lead := by
        rw [hlid]
        exact hfind
      cases hg : stageEligible (stageStatuses "score") now lead with
      | false =>
        have happ : applyOp rt parseDate (.scoreStep cfg id) store now = store := by
          simp [applyOp, hfind, hg]
        rw [happ]
        exact unchanged_edge _ store i hi
      | true =>
        have happ : applyOp rt parseDate (.scoreStep cfg id) store now =
            scoreLeadStep cfg parseDate store lead now := by
          simp [applyOp, hfind, hg]
        rw [happ]
        obtain ⟨g, hK, hst⟩ := scoreLeadStep_keyedForm cfg parseDate store lead now
        have hstat : lead.status = .enriched := by
          have hg' : stageEligible [LeadStatus.enriched] now lead = true := hg
          unfold stageEligible at hg'
          simp only [Bool.and_eq_true] at hg'
          have helem : List.elem lead.status [LeadStatus.enriched] = true := hg'.1.1
          simpa using List.elem_iff.mp helem
        apply keyedForm_edge _ hK lead hfind' hwf i hi
        rcases hst with hst | hst | hst <;> rw [hst, hstat]
        · exact amendedEdgeOk_of_spec _ (specAllowedEdge_to_excluded _)
        · exact amendedEdgeOk_of_spec _ (specAllowedEdge_to_cooldown _)
        · exact amendedEdgeOk_of_spec _ (by decide)
  | outputStep days minScore id =>
    cases hfind : getById store id with
    | none =>
      have happ : applyOp rt parseDate (.outputStep days minScore id) store now =
          store := by simp [applyOp, hfind]
      rw [happ]
      exact unchanged_edge _ store i hi
    | some lead =>
      have hlid : lead.leadId = id := by simpa using List.find?_some hfind
      have hfind' : getById store lead.leadId = some lead := by
        rw [hlid]
        exact hfind
      cases hg : stageEligible (stageStatuses "output") now lead &&
          !JsNum.ltb (scoreOrZero lead) minScore with
      | false =>
        have happ : applyOp rt parseDate (.outputStep days minScore id) store now =
            store := by simp [applyOp, hfind, hg]
        rw [happ]
        exact unchanged_edge _ store i hi
      | true =>
        have happ : applyOp rt parseDate (.outputStep days minScore id) store now =
            outputLeadStep days store lead now := by
          simp [applyOp, hfind, hg]
        rw [happ]
        obtain ⟨g, hK, hst⟩ := outputLeadStep_keyedForm store lead days now
        exact keyedForm_edge _ hK lead hfind' hwf i hi
          (by rw [hst]; exact amendedEdgeOk_of_spec _ (specAllowedEdge_to_cooldown _))
  | refreshExpired reset id =>
    cases hfind : getById store id with
    | none =>
      have happ : applyOp rt parseDate (.refreshExpired reset id) store now = store := by
        simp [applyOp, hfind]
      rw [happ]
      exact unchanged_edge _ store i hi
    | some lead =>
      have hlid : lead.leadId = id := by simpa using List.find?_some hfind
      have hfind' : getById store lead.leadId = some lead := by
        rw [hlid]
        exact hfind
      cases hcd : lead.cooldownUntil with
      | none =>
        have happ : applyOp rt parseDate (.refreshExpired reset id) store now = store := by
          simp [applyOp, hfind, hcd]
        rw [happ]
        exact unchanged_edge _ store i hi
      | some t =>
        by_cases ht : t < now
        · have happ : applyOp rt parseDate (.refreshExpired reset id) store now =
              refreshExpiredStep reset store lead now := by
            simp [applyOp, hfind, hcd, ht]
          rw [happ]
          obtain ⟨g, hK, hst⟩ := refreshExpiredStep_keyedForm store lead reset now hfind'
          exact keyedForm_edge _ hK lead hfind' hwf i hi
            (by rw [hst]; exact amendedEdgeOk_refresh_target reset id _ _ (Or.inr rfl))
        · have happ : applyOp rt parseDate (.refreshExpired reset id) store now =
              store := by simp [applyOp, hfind, hcd, ht]
          rw [happ]
          exact unchanged_edge _ store i hi
  | refreshSignal cutoff id =>
    cases hfind : getById store id with
    | none =>
      have happ : applyOp rt parseDate (.refreshSignal cutoff id) store now = store := by
        simp [applyOp, hfind]
      rw [happ]
      exact unchanged_edge _ store i hi
    | some lead =>
      have hlid : lead.leadId = id := by simpa using List.find?_some hfind
      have hfind' : getById store lead.leadId = some lead := by
        rw [hlid]
        exact hfind
      by_cases hg : (lead.status = LeadStatus.output ∨ lead.status = LeadStatus.cooldown) ∧
          lead.updatedAt < cutoff
      · have happ : applyOp rt parseDate (.refreshSignal cutoff id) store now =
            refreshSignalStep store lead now := by
          simp [applyOp, hfind, hg.1, hg.2]
        rw [happ]
        obtain ⟨g, hK, hst⟩ := refreshSignalStep_keyedForm store lead now hfind'
        exact keyedForm_edge _ hK lead hfind' hwf i hi
          (by rw [hst]; exact amendedEdgeOk_refl _ _)
      · have happ : applyOp rt parseDate (.refreshSignal cutoff id) store now = store := by
          simp [applyOp, hfind]
          intro h1 h2
          exact absurd ⟨h1, h2⟩ hg
        rw [happ]
        exact unchanged_edge _ store i hi

set_option maxRecDepth 400000 in
/-- C5 counterexample: after collect → filter → enrich → score the lead's
status is `scored`; a second discovery and collection of the same business
resets it to `collected` (via `createFromRaw`'s `status: 'new'` upsert) — a
backward move that is not among the claim's allowed edges. -/
theorem recollect_resets_scored_status :
    (getById acmeScored acmeId).map Lead.status = some .scored ∧
      (getById (applyOp rtNone pdNone (.collect rawNoContact "yelp" "run2") acmeScored 104)
          acmeId).map Lead.status = some .collected ∧
      specAllowedEdge .scored .collected = false :=
  ⟨by decide, by decide, by decide⟩

/-- C5 witness (for the amended theorem): one concrete filter step over a
two-lead store takes an allowed edge at row 0. -/
theorem applyOp_status_edge_amended_witness :
    (([sampleLead, sampleLeadB].map Lead.leadId).Nodup ∧
        0 < [sampleLead, sampleLeadB].length) ∧
      ∃ l', (applyOp rtNone pdNone (.filterStep [] [] [] "k1")
          [sampleLead, sampleLeadB] 7).get? 0 = some l' ∧
        amendedEdgeOk (.filterStep [] [] [] "k1")
          (([sampleLead, sampleLeadB].get ⟨0, by decide⟩).status) l'.status = true :=
  ⟨⟨by decide, by decide⟩,
    applyOp_status_edge_amended rtNone pdNone (.filterStep [] [] [] "k1")
      [sampleLead, sampleLeadB] 7 (by decide) 0 (by decide)⟩

end ProspectMiner
